import Mathlib

/-!
uv-runner: verified download, extraction and invocation

A shallow embedding of the three Go programs of the repository
(`uv-runner-cli/uv_runner.go`, `uv-runner-gui/uv_runner_gui.go` and the older
`uv_runner_go.go`) together with the parts of the Go standard library they call.

Conventions.
* A Go `string` is a byte sequence.  It is modelled by the Lean `String` whose
  characters are those bytes (code points 0..255), so ASCII text reads the same and
  equality and concatenation are the bytewise ones of Go.
* A Go `[]byte` is a `List UInt8`.
* Effects on the outside world (network, file system, child processes) are recorded,
  in program order, as a list of `Event`s; what the outside world answers is read
  from a `World`.  Writes to standard output and to the GUI output pane are not
  recorded.
-/

namespace UvRunner

/-! ## Standard library: crypto/sha256 and fmt -/

def sha256K : List Nat := [
  0x428a2f98, 0x71374491, 0xb5c0fbcf, 0xe9b5dba5, 0x3956c25b, 0x59f111f1, 0x923f82a4, 0xab1c5ed5,
  0xd807aa98, 0x12835b01, 0x243185be, 0x550c7dc3, 0x72be5d74, 0x80deb1fe, 0x9bdc06a7, 0xc19bf174,
  0xe49b69c1, 0xefbe4786, 0x0fc19dc6, 0x240ca1cc, 0x2de92c6f, 0x4a7484aa, 0x5cb0a9dc, 0x76f988da,
  0x983e5152, 0xa831c66d, 0xb00327c8, 0xbf597fc7, 0xc6e00bf3, 0xd5a79147, 0x06ca6351, 0x14292967,
  0x27b70a85, 0x2e1b2138, 0x4d2c6dfc, 0x53380d13, 0x650a7354, 0x766a0abb, 0x81c2c92e, 0x92722c85,
  0xa2bfe8a1, 0xa81a664b, 0xc24b8b70, 0xc76c51a3, 0xd192e819, 0xd6990624, 0xf40e3585, 0x106aa070,
  0x19a4c116, 0x1e376c08, 0x2748774c, 0x34b0bcb5, 0x391c0cb3, 0x4ed8aa4a, 0x5b9cca4f, 0x682e6ff3,
  0x748f82ee, 0x78a5636f, 0x84c87814, 0x8cc70208, 0x90befffa, 0xa4506ceb, 0xbef9a3f7, 0xc67178f2]

def sha256Init : List Nat :=
  [0x6a09e667, 0xbb67ae85, 0x3c6ef372, 0xa54ff53a, 0x510e527f, 0x9b05688c, 0x1f83d9ab, 0x5be0cd19]

def rotr32 (x n : Nat) : Nat := ((x >>> n) ||| (x <<< (32 - n))) % 2 ^ 32

def add32 (x y : Nat) : Nat := (x + y) % 2 ^ 32

def not32 (x : Nat) : Nat := (2 ^ 32 - 1) ^^^ (x % 2 ^ 32)

/-- Big-endian bytes of the low `8 * n` bits of `x`. -/
def beBytes : Nat → Nat → List UInt8
  | 0, _ => []
  | n + 1, x => UInt8.ofNat ((x >>> (8 * n)) % 256) :: beBytes n x

/-- The message followed by 0x80, zero bytes up to 56 mod 64, and the bit length on 8 bytes. -/
def sha256Pad (msg : List UInt8) : List UInt8 :=
  msg ++ [0x80] ++ List.replicate ((119 - msg.length % 64) % 64) 0 ++ beBytes 8 (8 * msg.length)

def beWord (bs : List UInt8) : Nat := bs.foldl (fun acc b => acc * 256 + b.toNat) 0

/-- The big-endian 32-bit words of a byte string. -/
def toWords : Nat → List UInt8 → List Nat
  | 0, _ => []
  | n + 1, bs => beWord (bs.take 4) :: toWords n (bs.drop 4)

/-- Extend the 16 words of a block to the 64 words of the message schedule; `ws` holds the
schedule built so far, most recent word first. -/
def sha256Schedule : Nat → List Nat → List Nat
  | 0, ws => ws.reverse
  | n + 1, ws =>
    let w2 := ws.getD 1 0
    let w7 := ws.getD 6 0
    let w15 := ws.getD 14 0
    let w16 := ws.getD 15 0
    let s0 := rotr32 w15 7 ^^^ rotr32 w15 18 ^^^ (w15 >>> 3)
    let s1 := rotr32 w2 17 ^^^ rotr32 w2 19 ^^^ (w2 >>> 10)
    sha256Schedule n (add32 (add32 (add32 w16 s0) w7) s1 :: ws)

structure Sha256Regs where
  a : Nat
  b : Nat
  c : Nat
  d : Nat
  e : Nat
  f : Nat
  g : Nat
  h : Nat

def sha256Round (r : Sha256Regs) (kw : Nat × Nat) : Sha256Regs :=
  let s1 := rotr32 r.e 6 ^^^ rotr32 r.e 11 ^^^ rotr32 r.e 25
  let ch := (r.e &&& r.f) ^^^ (not32 r.e &&& r.g)
  let t1 := add32 (add32 (add32 (add32 r.h s1) ch) kw.1) kw.2
  let s0 := rotr32 r.a 2 ^^^ rotr32 r.a 13 ^^^ rotr32 r.a 22
  let maj := (r.a &&& r.b) ^^^ (r.a &&& r.c) ^^^ (r.b &&& r.c)
  let t2 := add32 s0 maj
  ⟨add32 t1 t2, r.a, r.b, r.c, add32 r.d t1, r.e, r.f, r.g⟩

def sha256Block (h : List Nat) (block : List UInt8) : List Nat :=
  let ws := sha256Schedule 48 (toWords 16 block).reverse
  let r0 : Sha256Regs := ⟨h.getD 0 0, h.getD 1 0, h.getD 2 0, h.getD 3 0,
    h.getD 4 0, h.getD 5 0, h.getD 6 0, h.getD 7 0⟩
  let r := (sha256K.zip ws).foldl sha256Round r0
  List.zipWith add32 h [r.a, r.b, r.c, r.d, r.e, r.f, r.g, r.h]

def sha256Blocks : Nat → List Nat → List UInt8 → List Nat
  | 0, h, _ => h
  | n + 1, h, bs => sha256Blocks n (sha256Block h (bs.take 64)) (bs.drop 64)

/-- SHA-256 (FIPS 180-4) of a byte string: the 32 bytes of the digest. -/
def sha256 (msg : List UInt8) : List UInt8 :=
  let p := sha256Pad msg
  (sha256Blocks (p.length / 64) sha256Init p).flatMap (beBytes 4)

def hexDigit (n : Nat) : Char :=
  if n < 10 then Char.ofNat (48 + n) else Char.ofNat (87 + n)

/-- The verb %x applied to a byte slice: two lowercase hexadecimal digits per byte. -/
def fmtHex (bs : List UInt8) : String :=
  String.mk (bs.flatMap (fun b => [hexDigit (b.toNat / 16), hexDigit (b.toNat % 16)]))


/-- The verb %d applied to an int. -/
def fmtInt (n : Int) : String := toString n

/-- The conversion string(b) of a byte slice. -/
def goString (bs : List UInt8) : String := String.mk (bs.map (fun b => Char.ofNat b.toNat))

/-! ## Standard library: strings.Fields -/

def runeError : Nat := 0xFFFD

def isCont (b : Nat) : Bool := 0x80 ≤ b && b ≤ 0xBF

/-- Go utf8.DecodeRuneInString on the leading bytes of a string: the rune and its width in
bytes.  An invalid or truncated encoding gives (RuneError, 1), the empty string
(RuneError, 0). -/
def decodeRune : List Nat → Nat × Nat
  | [] => (runeError, 0)
  | b0 :: rest =>
    if b0 < 0x80 then (b0, 1)
    else if 0xC2 ≤ b0 && b0 ≤ 0xDF then
      match rest with
      | b1 :: _ =>
        if isCont b1 then (((b0 &&& 0x1F) <<< 6) ||| (b1 &&& 0x3F), 2) else (runeError, 1)
      | [] => (runeError, 1)
    else if 0xE0 ≤ b0 && b0 ≤ 0xEF then
      let lo := if b0 = 0xE0 then 0xA0 else 0x80
      let hi := if b0 = 0xED then 0x9F else 0xBF
      match rest with
      | b1 :: b2 :: _ =>
        if lo ≤ b1 && b1 ≤ hi && isCont b2 then
          (((b0 &&& 0x0F) <<< 12) ||| ((b1 &&& 0x3F) <<< 6) ||| (b2 &&& 0x3F), 3)
        else (runeError, 1)
      | _ => (runeError, 1)
    else if 0xF0 ≤ b0 && b0 ≤ 0xF4 then
      let lo := if b0 = 0xF0 then 0x90 else 0x80
      let hi := if b0 = 0xF4 then 0x8F else 0xBF
      match rest with
      | b1 :: b2 :: b3 :: _ =>
        if lo ≤ b1 && b1 ≤ hi && isCont b2 && isCont b3 then
          (((b0 &&& 0x07) <<< 18) ||| ((b1 &&& 0x3F) <<< 12) ||| ((b2 &&& 0x3F) <<< 6)
            ||| (b3 &&& 0x3F), 4)
        else (runeError, 1)
      | _ => (runeError, 1)
    else (runeError, 1)

/-- Go unicode.IsSpace. -/
def isSpace (r : Nat) : Bool :=
  r = 0x09 || r = 0x0A || r = 0x0B || r = 0x0C || r = 0x0D || r = 0x20 || r = 0x85 || r = 0xA0
    || r = 0x1680 || (0x2000 ≤ r && r ≤ 0x200A) || r = 0x2028 || r = 0x2029 || r = 0x202F
    || r = 0x205F || r = 0x3000

def flushField (cur : List Char) : List String :=
  if cur.isEmpty then [] else [String.mk cur]

/-- The scan of strings.Fields: `cur` holds the bytes of the field being read. -/
def fieldsAux : Nat → List Char → List Char → List String
  | 0, _, cur => flushField cur
  | _ + 1, [], cur => flushField cur
  | n + 1, c :: s, cur =>
    let rw := decodeRune ((c :: s.take 3).map Char.toNat)
    if isSpace rw.1 then flushField cur ++ fieldsAux n ((c :: s).drop rw.2) []
    else fieldsAux n ((c :: s).drop rw.2) (cur ++ (c :: s).take rw.2)

/-- Go strings.Fields: the maximal runs of non-space runes, in order. -/
def stringsFields (s : String) : List String := fieldsAux s.data.length s.data []

/-! ## Standard library: path/filepath on a Unix host -/

/-- Split at every slash: the elements between the slashes, empty ones included. -/
def splitSlash : List Char → List (List Char)
  | [] => [[]]
  | c :: cs =>
    match splitSlash cs with
    | [] => [[]]
    | e :: es => if c = '/' then [] :: e :: es else (c :: e) :: es

/-- The element stack of filepath.Clean, most recent element first. -/
def cleanStep (rooted : Bool) (stack : List (List Char)) (e : List Char) : List (List Char) :=
  if e = [] || e = ['.'] then stack
  else if e = ['.', '.'] then
    match stack with
    | [] => if rooted then [] else [e]
    | top :: below => if top = ['.', '.'] then e :: top :: below else below
  else e :: stack

/-- The last step of filepath.Clean: the empty result is written ".". -/
def dotIfEmpty (out : String) : String := if out = "" then "." else out

/-- Go filepath.Clean on a Unix host. -/
def unixClean (path : String) : String :=
  let rooted := path.data.head? = some '/'
  let elems := ((splitSlash path.data).foldl (cleanStep rooted) []).reverse
  dotIfEmpty ((if rooted then "/" else "") ++ String.mk (List.intercalate ['/'] elems))

/-- Go filepath.Join of two elements on a Unix host. -/
def unixJoin (a b : String) : String :=
  if a ≠ "" then unixClean (a ++ "/" ++ b)
  else if b ≠ "" then unixClean b
  else ""

/-- Go filepath.Base on a Unix host. -/
def unixBase (path : String) : String :=
  if path = "" then "."
  else
    let stripped := path.data.reverse.dropWhile (fun c => c = '/')
    let last := (stripped.takeWhile (fun c => c ≠ '/')).reverse
    if last = [] then "/" else String.mk last

/-! ## The outside world -/

/-- An HTTP response: the status code and the body, as the chunks that successive reads
deliver, ended by io.EOF (`readErr = none`) or by a read error. -/
structure Response where
  statusCode : Int
  chunks : List (List UInt8)
  readErr : Option String
deriving DecidableEq, Repr

/-- The type of an archive entry: tar Typeflag, zip file mode. -/
inductive EntryKind where
  | regular
  | directory
  | symlink
deriving DecidableEq, Repr

/-- One archive entry, as the tar or zip reader hands it out: header fields and the
decompressed bytes of its body.  `openErr` is the error of zip File.Open, `readErr` the error
that interrupts the reading of the body after `data` has been delivered. -/
structure Entry where
  name : String
  kind : EntryKind
  data : List UInt8
  openErr : Option String
  readErr : Option String
deriving DecidableEq, Repr

/-- What a gzip+tar reader yields: the entries in archive order, then io.EOF
(`endErr = none`) or the error with which Next fails. -/
structure TarStream where
  entries : List Entry
  endErr : Option String
deriving DecidableEq, Repr

/-- The effects of the programs on the outside world. -/
inductive Event where
  | httpGet (url : String)
  | mkdirTemp (dir : String)
  | createTemp (name : String)
  | create (name : String)
  | write (name : String) (data : List UInt8)
  | chmod (name : String) (mode : Nat)
  | remove (name : String)
  | removeAll (dir : String)
  | readHeader (entry : String)
  | readEntry (entry : String)
  | run (path : String) (args : List String)
  | start (path : String) (args : List String)
  | processKill (pid : Nat)
  | sleep (ms : Nat)
deriving DecidableEq, Repr

/-- The host and everything the outside world answers.
* `goos`, `goarch`: runtime.GOOS, runtime.GOARCH; `args`: os.Args, program name first.
* `filepathBase`, `filepathJoin`: filepath.Base and filepath.Join of the host.
* `httpGet`: http.Get, a transport error or a response.
* `mkdirTemp`: os.MkdirTemp("", "uv-runner-*"), an error or the directory created.
* `createTemp`: os.CreateTemp(dir, pattern), an error or the name of the file created.
* `writeErr`, `createErr`, `chmodErr`, `seekErr`, `statErr`: the error, if any, of a write
  to a file, of os.Create, os.Chmod, File.Seek and File.Stat.
* `gzipTar`: gzip.NewReader then tar.NewReader on the bytes of a file, the error of
  gzip.NewReader or the stream of entries; `zipReader`: zip.NewReader.
* `runErr`: the result of Cmd.Run; `startCmd`: Cmd.Start, an error or the process id;
  `pipeErr`: the error, if any, of Cmd.StdoutPipe and Cmd.StderrPipe. -/
structure World where
  goos : String
  goarch : String
  args : List String
  filepathBase : String → String
  filepathJoin : String → String → String
  httpGet : String → Except String Response
  mkdirTemp : Except String String
  createTemp : String → String → Except String String
  writeErr : String → Option String
  createErr : String → Option String
  chmodErr : String → Option String
  seekErr : Option String
  statErr : Option String
  gzipTar : List UInt8 → Except String TarStream
  zipReader : List UInt8 → Except String (List Entry)
  runErr : String → List String → Option String
  startCmd : String → List String → Except String Nat
  pipeErr : Option String

/-- How a Go function ends: it returns, or it panics with a message. -/
inductive Outcome (α : Type) where
  | ret (val : α)
  | panic (msg : String)
deriving DecidableEq, Repr

/-- The events of an execution, in order, and how it ended. -/
structure Run (α : Type) where
  trace : List Event
  out : Outcome α
deriving DecidableEq, Repr

/-- A Go error value: an error handed out by the standard library or the operating system,
or one built by fmt.Errorf, without or with a wrapped error (verb %w at the end). -/
inductive GoError where
  | lib (msg : String)
  | errorf (msg : String)
  | wrap (msg : String) (err : GoError)
deriving DecidableEq, Repr

/-- The method Error of an error value. -/
def GoError.Error : GoError → String
  | .lib msg => msg
  | .errorf msg => msg
  | .wrap msg err => msg ++ err.Error

/-- The Go result pair (string, error); `none` is the nil error. -/
abbrev PathErr := String × Option GoError

/-! ## The file system, as the events leave it -/

/-- A directory, or a file with its bytes and permission bits (as requested by the
program, before the umask). -/
inductive Node where
  | dir
  | file (data : List UInt8) (mode : Nat)
deriving DecidableEq, Repr

abbrev FS := String → Option Node

def emptyFS : FS := fun _ => none

def FS.set (fs : FS) (name : String) (n : Option Node) : FS :=
  fun p => if p = name then n else fs p

/-- Whether `p` lies beneath directory `dir`: `dir`, a path separator, then more. -/
def isBeneath (dir p : String) : Bool :=
  (dir.data ++ ['/']).isPrefixOf p.data || (dir.data ++ ['\\']).isPrefixOf p.data

def applyEvent (fs : FS) : Event → FS
  | .mkdirTemp d => fs.set d (some .dir)
  | .createTemp n => fs.set n (some (.file [] 0o600))
  | .create n =>
    match fs n with
    | some (.file _ m) => fs.set n (some (.file [] m))
    | _ => fs.set n (some (.file [] 0o666))
  | .write n data =>
    match fs n with
    | some (.file d m) => fs.set n (some (.file (d ++ data) m))
    | _ => fs
  | .chmod n mode =>
    match fs n with
    | some (.file d _) => fs.set n (some (.file d mode))
    | _ => fs
  | .remove n => fs.set n none
  | .removeAll d => fun p => if p = d || isBeneath d p then none else fs p
  | _ => fs

/-- The file system after the events of a trace. -/
def replay (fs : FS) (trace : List Event) : FS := trace.foldl applyEvent fs

/-! ## uv-runner-cli/uv_runner.go -/

namespace Cli

def uvVersion : String := "0.8.19"

def getPlatform (goos : String) : Outcome String :=
  if goos = "darwin" then .ret "apple-darwin"
  else if goos = "linux" then .ret "unknown-linux-gnu"
  else if goos = "windows" then .ret "pc-windows-msvc"
  else .panic ("Unsupported platform: " ++ goos)

def getArch (goarch : String) : Outcome String :=
  if goarch = "amd64" then .ret "x86_64"
  else if goarch = "arm64" then .ret "aarch64"
  else .panic ("Unsupported architecture: " ++ goarch)

/-- The first three statements of main: getPlatform, then getArch, then the target
string "%s-%s" of arch and platform. -/
def resolveTarget (goos goarch : String) : Outcome String :=
  match getPlatform goos with
  | .panic m => .panic m
  | .ret platform =>
    match getArch goarch with
    | .panic m => .panic m
    | .ret arch => .ret (arch ++ "-" ++ platform)

def notFound : PathErr := ("", some (.errorf "uv binary not found in archive"))

/-- The matching branch of the scan from os.Create on, the same statements in both
extractors: create the output file, copy the body of the entry into it, close, chmod 0755,
leave the loop and return (`uvPath` unless it is the empty string). -/
def extractEntry (w : World) (uvPath : String) (e : Entry) : Run PathErr :=
  match w.createErr uvPath with
  | some err => ⟨[], .ret ("", some (.lib err))⟩
  | none =>
    match (if e.data = [] then none else w.writeErr uvPath) with
    | some err => ⟨[.create uvPath, .readEntry e.name], .ret ("", some (.lib err))⟩
    | none =>
      match e.readErr with
      | some err =>
        ⟨[.create uvPath, .readEntry e.name, .write uvPath e.data], .ret ("", some (.lib err))⟩
      | none =>
        match w.chmodErr uvPath with
        | some err =>
          ⟨[.create uvPath, .readEntry e.name, .write uvPath e.data], .ret ("", some (.lib err))⟩
        | none =>
          ⟨[.create uvPath, .readEntry e.name, .write uvPath e.data, .chmod uvPath 0o755],
            .ret (if uvPath = "" then notFound else (uvPath, none))⟩

/-- The loop of extractTarGz over the entries that tr.Next hands out. -/
def tarLoop (w : World) (tempDir : String) : List Entry → Option String → Run PathErr
  | [], none => ⟨[], .ret notFound⟩
  | [], some err => ⟨[], .ret ("", some (.lib err))⟩
  | header :: rest, endErr =>
    if w.filepathBase header.name = "uv" || w.filepathBase header.name = "uv.exe" then
      let uvPath := w.filepathJoin tempDir (w.filepathBase header.name)
      let r := extractEntry w uvPath header
      ⟨.readHeader header.name :: r.trace, r.out⟩
    else
      let r := tarLoop w tempDir rest endErr
      ⟨.readHeader header.name :: r.trace, r.out⟩

def extractTarGz (w : World) (file : List UInt8) (tempDir : String) : Run PathErr :=
  match w.gzipTar file with
  | .error err => ⟨[], .ret ("", some (.lib err))⟩
  | .ok tr => tarLoop w tempDir tr.entries tr.endErr

/-- The loop of extractZip over zr.File. -/
def zipLoop (w : World) (tempDir : String) : List Entry → Run PathErr
  | [] => ⟨[], .ret notFound⟩
  | f :: rest =>
    if w.filepathBase f.name = "uv.exe" || w.filepathBase f.name = "uv" then
      let uvPath := w.filepathJoin tempDir (w.filepathBase f.name)
      match f.openErr with
      | some err => ⟨[], .ret ("", some (.lib err))⟩
      | none => extractEntry w uvPath f
    else zipLoop w tempDir rest

def extractZip (w : World) (file : List UInt8) (tempDir : String) : Run PathErr :=
  match w.statErr with
  | some err => ⟨[], .ret ("", some (.lib err))⟩
  | none =>
    match w.zipReader file with
    | .error err => ⟨[], .ret ("", some (.lib err))⟩
    | .ok zr => zipLoop w tempDir zr

/-- What io.MultiWriter(tmpFile, hasher) has received: the bytes written to the temporary
file and the bytes written to the hash (hash.Hash: Sum is the digest of all the bytes
written so far). -/
structure Download where
  file : List UInt8
  hasher : List UInt8

/-- The loop of io.Copy(multiWriter, resp.Body): each chunk read from the body is written
to the temporary file, then to the hash. -/
def copyBody (w : World) (tmpName : String) :
    List (List UInt8) → Download → List Event × Except String Download
  | [], d => ([], .ok d)
  | c :: cs, d =>
    match w.writeErr tmpName with
    | some err => ([], .error err)
    | none =>
      let r := copyBody w tmpName cs ⟨d.file ++ c, d.hasher ++ c⟩
      (.write tmpName c :: r.1, r.2)

def downloadURL (goos version target : String) : String :=
  "https://github.com/astral-sh/uv/releases/download/" ++ version ++ "/uv-" ++ target
    ++ (if goos = "windows" then ".zip" else ".tar.gz")

def indexPanic : String := "runtime error: index out of range [0] with length 0"

/-- The statements of downloadUV that run once the temporary file exists (between
os.CreateTemp and the deferred os.Remove). -/
def downloadUVBody (w : World) (tempDir checksumURL tmpName : String) (resp : Response) :
    Run PathErr :=
  let c := copyBody w tmpName resp.chunks ⟨[], []⟩
  match c.2 with
  | .error err => ⟨c.1, .ret ("", some (.wrap "failed to save download: " (.lib err)))⟩
  | .ok d =>
    match resp.readErr with
    | some err => ⟨c.1, .ret ("", some (.wrap "failed to save download: " (.lib err)))⟩
    | none =>
      let actualChecksum := fmtHex (sha256 d.hasher)
      match w.httpGet checksumURL with
      | .error err =>
        ⟨c.1 ++ [.httpGet checksumURL], .ret ("", some (.wrap "failed to download checksum: " (.lib err)))⟩
      | .ok checksumResp =>
        if checksumResp.statusCode ≠ 200 then
          ⟨c.1 ++ [.httpGet checksumURL],
            .ret ("", some (.errorf ("failed to download checksum: status "
              ++ fmtInt checksumResp.statusCode)))⟩
        else
          match checksumResp.readErr with
          | some err =>
            ⟨c.1 ++ [.httpGet checksumURL], .ret ("", some (.wrap "failed to read checksum: " (.lib err)))⟩
          | none =>
            match stringsFields (goString checksumResp.chunks.flatten) with
            | [] => ⟨c.1 ++ [.httpGet checksumURL], .panic indexPanic⟩
            | expectedChecksum :: _ =>
              if actualChecksum ≠ expectedChecksum then
                ⟨c.1 ++ [.httpGet checksumURL],
                  .ret ("", some (.errorf ("checksum verification failed: expected "
                    ++ expectedChecksum ++ ", got " ++ actualChecksum)))⟩
              else
                match w.seekErr with
                | some err =>
                  ⟨c.1 ++ [.httpGet checksumURL],
                    .ret ("", some (.wrap "failed to reset file position: " (.lib err)))⟩
                | none =>
                  let x := if w.goos = "windows" then extractZip w d.file tempDir
                    else extractTarGz w d.file tempDir
                  ⟨c.1 ++ [.httpGet checksumURL] ++ x.trace, x.out⟩

def downloadUV (w : World) (tempDir target : String) : Run PathErr :=
  let tmpFilePattern := if w.goos = "windows" then "uv-*.zip" else "uv-*.tar.gz"
  let url := downloadURL w.goos uvVersion target
  let checksumURL := url ++ ".sha256"
  match w.httpGet url with
  | .error err => ⟨[.httpGet url], .ret ("", some (.lib err))⟩
  | .ok resp =>
    if resp.statusCode ≠ 200 then
      ⟨[.httpGet url],
        .ret ("", some (.errorf ("failed to download uv: status " ++ fmtInt resp.statusCode)))⟩
    else
      match w.createTemp tempDir tmpFilePattern with
      | .error err => ⟨[.httpGet url], .ret ("", some (.wrap "failed to create temp file: " (.lib err)))⟩
      | .ok tmpName =>
        let r := downloadUVBody w tempDir checksumURL tmpName resp
        ⟨[.httpGet url, .createTemp tmpName] ++ r.trace ++ [.remove tmpName], r.out⟩

def defaultScripts : List String :=
  ["https://raw.githubusercontent.com/tnldart/openapi-servers/refs/heads/main/servers/memory/oneshot.py",
   "https://raw.githubusercontent.com/tnldart/openapi-servers/refs/heads/main/servers/memory/main.py"]

/-- The program: the result is the exit code of a run that ends by returning from main (0)
or by os.Exit; a panic runs the deferred os.RemoveAll, os.Exit does not. -/
def main (w : World) : Run Nat :=
  match resolveTarget w.goos w.goarch with
  | .panic m => ⟨[], .panic m⟩
  | .ret target =>
    match w.mkdirTemp with
    | .error err => ⟨[], .panic err⟩
    | .ok tempDir =>
      let d := downloadUV w tempDir target
      match d.out with
      | .panic m => ⟨.mkdirTemp tempDir :: d.trace ++ [.removeAll tempDir], .panic m⟩
      | .ret (_, some err) =>
        ⟨.mkdirTemp tempDir :: d.trace ++ [.removeAll tempDir], .panic err.Error⟩
      | .ret (uvPath, none) =>
        let scripts := if w.args.length > 1 then w.args.drop 1 else defaultScripts
        let args := ["run"] ++ scripts
        match w.runErr uvPath args with
        | some _ => ⟨.mkdirTemp tempDir :: d.trace ++ [.run uvPath args], .ret 1⟩
        | none => ⟨.mkdirTemp tempDir :: d.trace ++ [.run uvPath args, .removeAll tempDir], .ret 0⟩

end Cli

/-! ## uv-runner-gui/uv_runner_gui.go -/

namespace Gui

/-- An exec.Cmd of the registry: `process` is the id of cmd.Process, `none` while
cmd.Process is nil. -/
structure Cmd where
  path : String
  args : List String
  process : Option Nat
deriving DecidableEq, Repr

/-- The fields of App that the pipeline and the process registry use. -/
structure App where
  scripts : List String
  uvPath : String
  tempDir : String
  runningCmds : List Cmd

/-- App.downloadUV: getPlatform, getArch and the target string, then, from the choice of the
file extension on, the statements of the CLI downloadUV (with the same uvVersion), its
messages going to the output pane. -/
def App.downloadUV (w : World) (tempDir : String) : Run PathErr :=
  match Cli.resolveTarget w.goos w.goarch with
  | .panic m => ⟨[], .panic m⟩
  | .ret target => Cli.downloadUV w tempDir target

/-- The goroutine of App.initializeUV: a failure is written to the output pane and leaves
uvPath empty. -/
def App.initializeUV (w : World) (a : App) : Run App :=
  match w.mkdirTemp with
  | .error _ => ⟨[], .ret a⟩
  | .ok tempDir =>
    let d := App.downloadUV w tempDir
    match d.out with
    | .panic m => ⟨.mkdirTemp tempDir :: d.trace, .panic m⟩
    | .ret (_, some _) => ⟨.mkdirTemp tempDir :: d.trace, .ret { a with tempDir := tempDir }⟩
    | .ret (uvPath, none) =>
      ⟨.mkdirTemp tempDir :: d.trace, .ret { a with tempDir := tempDir, uvPath := uvPath }⟩

/-- The termination of one registered command in App.runScripts. -/
def stopCmd (w : World) (cmd : Cmd) : List Event :=
  match cmd.process with
  | none => []
  | some pid =>
    (if w.goos ≠ "windows" then [Event.run "kill" ["-TERM", "-" ++ fmtInt pid]]
     else [Event.run "taskkill" ["/F", "/T", "/PID", fmtInt pid]]) ++ [Event.processKill pid]

/-- App.runScripts up to a.addRunningCmd(cmd): the checks, the termination of the
registered commands, then (in the goroutine) the command line, the pipes, cmd.Start and the
registration of the new command. -/
def App.runScripts (w : World) (a : App) : List Event × App :=
  if a.uvPath = "" then ([], a)
  else if a.scripts.length = 0 then ([], a)
  else
    let stops := if a.runningCmds.length > 0 then a.runningCmds.flatMap (stopCmd w) else []
    let a1 := if a.runningCmds.length > 0 then { a with runningCmds := [] } else a
    let args := ["run"] ++ a.scripts
    match w.pipeErr with
    | some _ => (stops, a1)
    | none =>
      match w.startCmd a.uvPath args with
      | .error _ => (stops, a1)
      | .ok pid =>
        (stops ++ [.start a.uvPath args],
          { a1 with runningCmds := a1.runningCmds ++ [⟨a.uvPath, args, some pid⟩] })

end Gui

/-! ## uv_runner_go.go (the older CLI) -/

namespace Old

def uvVersion : String := "0.8.11"

/-- The older downloadUV: one GET, then the gzip+tar reader directly on the response body
(the bytes it delivers) and the scan loop of the CLI extractTarGz.  No checksum file is
requested. -/
def downloadUV (w : World) (tempDir target : String) : Run PathErr :=
  let url := "https://github.com/astral-sh/uv/releases/download/" ++ uvVersion ++ "/uv-"
    ++ target ++ ".tar.gz"
  match w.httpGet url with
  | .error err => ⟨[.httpGet url], .ret ("", some (.lib err))⟩
  | .ok resp =>
    if resp.statusCode ≠ 200 then
      ⟨[.httpGet url],
        .ret ("", some (.errorf ("failed to download uv: status " ++ fmtInt resp.statusCode)))⟩
    else
      match w.gzipTar resp.chunks.flatten with
      | .error err => ⟨[.httpGet url], .ret ("", some (.lib err))⟩
      | .ok tr =>
        let r := Cli.tarLoop w tempDir tr.entries tr.endErr
        ⟨.httpGet url :: r.trace, r.out⟩

def main (w : World) : Run Nat :=
  match Cli.resolveTarget w.goos w.goarch with
  | .panic m => ⟨[], .panic m⟩
  | .ret target =>
    match w.mkdirTemp with
    | .error err => ⟨[], .panic err⟩
    | .ok tempDir =>
      let d := downloadUV w tempDir target
      match d.out with
      | .panic m => ⟨.mkdirTemp tempDir :: d.trace ++ [.removeAll tempDir], .panic m⟩
      | .ret (_, some err) =>
        ⟨.mkdirTemp tempDir :: d.trace ++ [.removeAll tempDir], .panic err.Error⟩
      | .ret (uvPath, none) =>
        let args := ["run"] ++ Cli.defaultScripts
        match w.runErr uvPath args with
        | some _ => ⟨.mkdirTemp tempDir :: d.trace ++ [.run uvPath args], .ret 1⟩
        | none => ⟨.mkdirTemp tempDir :: d.trace ++ [.run uvPath args, .removeAll tempDir], .ret 0⟩

end Old

/-! ## uv-runner-gui/uv_runner_gui.go: the registry of running commands -/

namespace Gui

def App.addRunningCmd (a : App) (cmd : Cmd) : App :=
  { a with runningCmds := a.runningCmds ++ [cmd] }

/-- App.removeRunningCmd: the first element of the registry that is `cmd` is taken out (the
source compares pointers; a command of the model stands for its pointer). -/
def App.removeRunningCmd (a : App) (cmd : Cmd) : App :=
  { a with runningCmds := a.runningCmds.erase cmd }

/-- The termination of one registered command in App.cleanup. -/
def cleanupCmd (w : World) (cmd : Cmd) : List Event :=
  match cmd.process with
  | none => []
  | some pid =>
    (if w.goos ≠ "windows" then
      (match w.runErr "kill" ["-TERM", "-" ++ fmtInt pid] with
        | none => [Event.run "kill" ["-TERM", "-" ++ fmtInt pid], Event.sleep 100]
        | some _ => [Event.run "kill" ["-TERM", "-" ++ fmtInt pid]])
        ++ [Event.run "kill" ["-KILL", "-" ++ fmtInt pid]]
     else [Event.run "taskkill" ["/F", "/T", "/PID", fmtInt pid]]) ++ [Event.processKill pid]

/-- App.cleanup, called when the window is closed. -/
def App.cleanup (w : World) (a : App) : List Event × App :=
  (a.runningCmds.flatMap (cleanupCmd w)
      ++ (if a.tempDir ≠ "" then [Event.removeAll a.tempDir] else []),
    { a with runningCmds := [] })

/-- The part of App.runScripts that runs under cmdsMutex, before the goroutine: the
termination of the registered commands and the emptying of the registry. -/
def App.stopExisting (w : World) (a : App) : List Event × App :=
  if a.runningCmds.length > 0 then
    (a.runningCmds.flatMap (stopCmd w), { a with runningCmds := [] })
  else ([], a)

/-- The goroutine of App.runScripts up to a.addRunningCmd(cmd). -/
def App.startScripts (w : World) (a : App) : List Event × App :=
  match w.pipeErr with
  | some _ => ([], a)
  | none =>
    match w.startCmd a.uvPath (["run"] ++ a.scripts) with
    | .error _ => ([], a)
    | .ok pid =>
      ([.start a.uvPath (["run"] ++ a.scripts)],
        a.addRunningCmd ⟨a.uvPath, ["run"] ++ a.scripts, some pid⟩)

/-- The termination sequence of the specification for a process with id `pid`: on a
Unix-family host TERM to the process group, the grace period, KILL to the process group and
the direct kill; on Windows the tree kill and the direct kill. -/
def claimedTermination (goos : String) (pid : Nat) : List Event :=
  if goos ≠ "windows" then
    [.run "kill" ["-TERM", "-" ++ fmtInt pid], .sleep 100,
     .run "kill" ["-KILL", "-" ++ fmtInt pid], .processKill pid]
  else [.run "taskkill" ["/F", "/T", "/PID", fmtInt pid], .processKill pid]

end Gui

/-! ## A concrete host -/

/-- A Linux/amd64 host on which every file operation succeeds: the archive URL answers
`archive`, the checksum URL `checksum`, the gzip+tar reader decodes every file to `tar`. -/
def linuxWorld (archive checksum : Response) (tar : TarStream) (args : List String) : World where
  goos := "linux"
  goarch := "amd64"
  args := args
  filepathBase := unixBase
  filepathJoin := unixJoin
  httpGet := fun url => if url.data.reverse.take 7 = ".sha256".data.reverse
    then .ok checksum else .ok archive
  mkdirTemp := .ok "/tmp/uv-runner-1"
  createTemp := fun dir _ => .ok (unixJoin dir "uv-2.tar.gz")
  writeErr := fun _ => none
  createErr := fun _ => none
  chmodErr := fun _ => none
  seekErr := none
  statErr := none
  gzipTar := fun _ => .ok tar
  zipReader := fun _ => .error "zip: not a valid zip file"
  runErr := fun _ _ => none
  startCmd := fun _ _ => .ok 4242
  pipeErr := none

/-- The conversion []byte(s) of an ASCII string. -/
def bytesOf (s : String) : List UInt8 := s.data.map (fun c => UInt8.ofNat c.toNat)

/-- A five-byte archive body, delivered in two chunks; its SHA-256 digest is
74f81fe167d99b4cb41d6d0ccda82278caee9f3e2f25d5e5a3936ff3dcec60d0. -/
def sampleArchive : Response := ⟨200, [[1, 2, 3], [4, 5]], none⟩

/-- The body of `sampleArchive` with its last byte changed. -/
def corruptArchive : Response := ⟨200, [[1, 2, 3], [4, 6]], none⟩

/-- The checksum file published for `sampleArchive`. -/
def sampleChecksum : Response :=
  ⟨200, [bytesOf ("74f81fe167d99b4cb41d6d0ccda82278caee9f3e2f25d5e5a3936ff3dcec60d0"
    ++ "  uv-x86_64-unknown-linux-gnu.tar.gz\n")], none⟩

/-- The entries of a release archive: a directory, the tool, a second tool. -/
def sampleTar : TarStream :=
  ⟨[⟨"uv-x86_64-unknown-linux-gnu/", .directory, [], none, none⟩,
    ⟨"uv-x86_64-unknown-linux-gnu/uv", .regular, [9, 9], none, none⟩,
    ⟨"uv-x86_64-unknown-linux-gnu/uvx", .regular, [7], none, none⟩], none⟩

/-- A host that serves the archive with its published checksum. -/
def verifiedWorld : World :=
  linuxWorld sampleArchive sampleChecksum sampleTar ["uv-runner", "a.py", "b.py"]

/-- A host that serves the corrupted archive with the checksum of the original. -/
def tamperedWorld : World :=
  linuxWorld corruptArchive sampleChecksum sampleTar ["uv-runner"]

/-- A host whose server answers the archive request with 204 No Content. -/
def noContentWorld : World :=
  linuxWorld ⟨204, [], none⟩ sampleChecksum sampleTar ["uv-runner"]

/-- A host whose server answers the checksum request with 206 Partial Content. -/
def partialChecksumWorld : World :=
  linuxWorld sampleArchive ⟨206, sampleChecksum.chunks, none⟩ sampleTar ["uv-runner"]

/-- The checksum file of `sampleArchive` with its digest in upper case. -/
def upperChecksum : Response :=
  ⟨200, [bytesOf ("74F81FE167D99B4CB41D6D0CCDA82278CAEE9F3E2F25D5E5A3936FF3DCEC60D0"
    ++ "  uv-x86_64-unknown-linux-gnu.tar.gz\n")], none⟩

/-- A host that serves the archive with `upperChecksum`. -/
def upperWorld : World :=
  linuxWorld sampleArchive upperChecksum sampleTar ["uv-runner"]

/-- A host whose zip reader decodes every file to the entries of `sampleTar`. -/
def zipWorld : World :=
  { verifiedWorld with zipReader := fun _ => .ok sampleTar.entries }

/-- An archive in which the tool lies in a directory named uv: the directory entry, then the
file. -/
def nestedTar : TarStream :=
  ⟨[⟨"uv/", .directory, [], none, none⟩, ⟨"uv/uv", .regular, [9, 9], none, none⟩], none⟩

/-- A host whose tar and zip readers decode every file to the entries of `nestedTar`. -/
def nestedWorld : World :=
  { linuxWorld sampleArchive sampleChecksum nestedTar ["uv-runner"] with
    zipReader := fun _ => .ok nestedTar.entries }

/-- A host whose tar reader decodes every file to a directory and the second tool. -/
def noToolWorld : World :=
  { verifiedWorld with
    gzipTar := fun _ => .ok ⟨[⟨"uv-x86_64-unknown-linux-gnu/", .directory, [], none, none⟩,
      ⟨"uv-x86_64-unknown-linux-gnu/uvx", .regular, [7], none, none⟩], none⟩ }

/-- A host whose server answers the checksum request with status 200 and an empty body. -/
def emptyChecksumWorld : World :=
  linuxWorld sampleArchive ⟨200, [], none⟩ sampleTar ["uv-runner"]

/-- A host whose server answers the checksum request with status 200 and white space. -/
def blankChecksumWorld : World :=
  linuxWorld sampleArchive ⟨200, [bytesOf " \n", bytesOf "\t"], none⟩ sampleTar ["uv-runner"]

/-- A host on which the pipeline succeeds and the tool exits with status 1. -/
def childFailsWorld : World :=
  { verifiedWorld with
    runErr := fun path _ => if path = "/tmp/uv-runner-1/uv" then some "exit status 1" else none }

/-- A host on which the command kill fails (no such process group). -/
def killFailsWorld : World :=
  { verifiedWorld with runErr := fun path _ => if path = "kill" then some "exit status 1" else none }

/-- A host whose GOOS is windows (only the operations on the registry are evaluated on
it). -/
def windowsWorld : World := { verifiedWorld with goos := "windows" }

/-- An application with uv initialised, one script and one registered command, of process
id 77. -/
def busyApp : Gui.App :=
  ⟨["x.py"], "/tmp/uv-runner-1/uv", "/tmp/uv-runner-1",
    [⟨"/tmp/uv-runner-1/uv", ["run", "w.py"], some 77⟩]⟩

/-- The bytes of a release archive: the gzip-compressed tar archive (ustar) whose one entry
is the regular file uv-x86_64-unknown-linux-gnu/uv, mode 0755, with the ten bytes of
`publishedTool`.  Its SHA-256 digest is
79e93cd03f4d7520fa225a7ecc28c198027b2abe440865dff9b27defadcfa590. -/
def publishedBytes : List UInt8 :=
  [31, 139, 8, 0, 0, 0, 0, 0, 2, 3, 237, 205, 177, 14, 130, 64, 16, 132, 225, 173, 125, 10,
   140, 245, 229, 14, 240, 192, 183, 33, 208, 40, 209, 44, 137, 184, 192, 227, 123, 218, 152,
   80, 27, 19, 226, 255, 53, 51, 153, 102, 108, 114, 203, 169, 106, 170, 163, 51, 189, 234, 48,
   171, 187, 245, 106, 139, 59, 171, 121, 155, 228, 43, 66, 82, 199, 248, 206, 100, 157, 33,
   228, 197, 167, 191, 246, 188, 44, 139, 40, 89, 144, 31, 176, 241, 209, 222, 211, 189, 252,
   167, 195, 222, 119, 189, 250, 241, 178, 19, 0, 0, 0, 0, 0, 0, 0, 0, 0, 0, 0, 0, 0, 192, 134,
   60, 1, 212, 5, 154, 14, 0, 40, 0, 0]

/-- The bytes of another well-formed archive with the same one entry name, whose file holds
the seventeen bytes of `swappedTool`.  Its SHA-256 digest is
b789425923f14b78a6747635a666d6d247cb8c4140598eee64a52cb4a73aa175. -/
def swappedBytes : List UInt8 :=
  [31, 139, 8, 0, 0, 0, 0, 0, 2, 3, 237, 205, 193, 10, 194, 48, 16, 132, 225, 61, 247, 41, 42,
   158, 67, 210, 214, 180, 190, 141, 40, 136, 6, 101, 5, 219, 173, 121, 124, 163, 23, 193, 179,
   8, 226, 255, 93, 102, 152, 203, 216, 236, 242, 186, 223, 244, 43, 103, 122, 210, 203, 77,
   221, 57, 169, 101, 119, 80, 243, 54, 203, 71, 132, 98, 136, 241, 153, 197, 123, 134, 208,
   54, 175, 254, 216, 155, 174, 107, 163, 212, 65, 190, 192, 198, 105, 123, 45, 247, 242, 159,
   150, 11, 191, 75, 234, 199, 99, 181, 207, 105, 170, 135, 74, 0, 0, 0, 0, 0, 0, 0, 0, 0, 0,
   0, 0, 0, 0, 191, 224, 14, 92, 178, 10, 35, 0, 40, 0, 0]

/-- The file in `publishedBytes`. -/
def publishedTool : List UInt8 := bytesOf "#!/bin/sh\n"

/-- The file in `swappedBytes`. -/
def swappedTool : List UInt8 := bytesOf "#!/bin/sh\nexit 7\n"

/-- The checksum file published for `publishedBytes`. -/
def publishedChecksum : Response :=
  ⟨200, [bytesOf ("79e93cd03f4d7520fa225a7ecc28c198027b2abe440865dff9b27defadcfa590"
    ++ "  uv-x86_64-unknown-linux-gnu.tar.gz\n")], none⟩

/-- What gzip.NewReader and tar.NewReader yield on the two archives above; no other file is
read on the hosts that use it. -/
def archiveReader (file : List UInt8) : Except String TarStream :=
  if file = publishedBytes then
    .ok ⟨[⟨"uv-x86_64-unknown-linux-gnu/uv", .regular, publishedTool, none, none⟩], none⟩
  else if file = swappedBytes then
    .ok ⟨[⟨"uv-x86_64-unknown-linux-gnu/uv", .regular, swappedTool, none, none⟩], none⟩
  else .error "gzip: invalid header"

/-- A host whose server delivers `swappedBytes` as the archive, in two chunks, next to the
checksum file published for `publishedBytes`. -/
def swappedWorld : World :=
  { linuxWorld ⟨200, [swappedBytes.take 64, swappedBytes.drop 64], none⟩ publishedChecksum
      ⟨[], none⟩ ["uv-runner"] with
    gzipTar := archiveReader }

/-- A success status, in the words of the specification: a 2xx status. -/
def isSuccessStatus (s : Int) : Bool := 200 ≤ s && s ≤ 299

/-! ## Observations on traces -/

/-- The digits of lowercase hexadecimal. -/
def lowerHexDigits : List Char := "0123456789abcdef".data

def supportedOS : List String := ["darwin", "linux", "windows"]

def supportedArch : List String := ["amd64", "arm64"]

/-- The URLs requested in a trace, in order. -/
def httpGets (trace : List Event) : List String :=
  trace.filterMap (fun e => match e with | .httpGet url => some url | _ => none)

/-- The files that os.Create creates in a trace, in order. -/
def creates (trace : List Event) : List String :=
  trace.filterMap (fun e => match e with | .create name => some name | _ => none)

/-- The commands run to completion (Cmd.Run) in a trace, in order. -/
def runs (trace : List Event) : List (String × List String) :=
  trace.filterMap (fun e => match e with | .run path args => some (path, args) | _ => none)

/-- The commands started (Cmd.Start) in a trace, in order. -/
def starts (trace : List Event) : List (String × List String) :=
  trace.filterMap (fun e => match e with | .start path args => some (path, args) | _ => none)

/-- Events of the file system and of the archive readers: neither a request nor a process. -/
def Event.isLocal : Event → Bool
  | .httpGet _ => false
  | .run _ _ => false
  | .start _ _ => false
  | .processKill _ => false
  | .sleep _ => false
  | _ => true

/-- Whether the lowercase hexadecimal SHA-256 digest of the bytes served at `url` equals the
first whitespace-delimited token of the text served at `url ++ ".sha256"`. -/
def checksumMatches (w : World) (url : String) : Bool :=
  match w.httpGet url, w.httpGet (url ++ ".sha256") with
  | .ok resp, .ok checksumResp =>
    (stringsFields (goString checksumResp.chunks.flatten)).head?
      = some (fmtHex (sha256 resp.chunks.flatten))
  | _, _ => false

/-! ## Lemmas on the library -/

set_option maxRecDepth 100000 in
/-- The model of SHA-256 on the test vectors of FIPS 180: the empty message and "abc". -/
theorem sha256_test_vectors :
    fmtHex (sha256 []) = "e3b0c44298fc1c149afbf4c8996fb92427ae41e4649b934ca495991b7852b855" ∧
    fmtHex (sha256 (bytesOf "abc"))
      = "ba7816bf8f01cfea414140de5dae2223b00361a396177a9cb410ff61f20015ad" := by
  decide

/-- The models of strings.Fields, filepath.Base and filepath.Join on sample inputs. -/
theorem library_samples :
    stringsFields " a1b2  uv.tar.gz\n" = ["a1b2", "uv.tar.gz"] ∧
    stringsFields "" = [] ∧ stringsFields " \t\n" = [] ∧
    unixBase "uv-x86_64-unknown-linux-gnu/uv" = "uv" ∧ unixBase "uv/" = "uv" ∧
    unixBase "" = "." ∧ unixBase "//" = "/" ∧
    unixJoin "/tmp/uv-runner-1" "uv" = "/tmp/uv-runner-1/uv" ∧
    unixJoin "a//b/./c/.." "uv.exe" = "a/b/uv.exe" ∧ unixJoin "" "uv" = "uv" := by
  decide

/-! ## Lemmas on traces -/

theorem httpGets_append (a b : List Event) : httpGets (a ++ b) = httpGets a ++ httpGets b := by
  simp [httpGets, List.filterMap_append]

theorem runs_append (a b : List Event) : runs (a ++ b) = runs a ++ runs b := by
  simp [runs, List.filterMap_append]

theorem creates_append (a b : List Event) : creates (a ++ b) = creates a ++ creates b := by
  simp [creates, List.filterMap_append]

theorem httpGets_of_local (t : List Event) (h : ∀ e ∈ t, e.isLocal = true) : httpGets t = [] := by
  induction t with
  | nil => rfl
  | cons e t ih =>
    have he := h e (List.mem_cons_self _ _)
    have := ih (fun x hx => h x (List.mem_cons_of_mem _ hx))
    cases e <;> first | exact this | exact absurd he Bool.false_ne_true

theorem runs_of_local (t : List Event) (h : ∀ e ∈ t, e.isLocal = true) : runs t = [] := by
  induction t with
  | nil => rfl
  | cons e t ih =>
    have he := h e (List.mem_cons_self _ _)
    have := ih (fun x hx => h x (List.mem_cons_of_mem _ hx))
    cases e <;> first | exact this | exact absurd he Bool.false_ne_true

theorem copyBody_local (w : World) (n : String) (cs : List (List UInt8)) (d : Cli.Download) :
    ∀ e ∈ (Cli.copyBody w n cs d).1, ∃ c, e = .write n c := by
  induction cs generalizing d with
  | nil => intro e he; simp only [Cli.copyBody, List.not_mem_nil] at he
  | cons c cs ih =>
    intro e he
    unfold Cli.copyBody at he
    split at he
    · simp only [List.not_mem_nil] at he
    · simp only [List.mem_cons] at he
      rcases he with rfl | he
      · exact ⟨c, rfl⟩
      · exact ih _ e he

theorem extractEntry_local (w : World) (p : String) (x : Entry) :
    ∀ e ∈ (Cli.extractEntry w p x).trace, e.isLocal = true := by
  intro e he
  unfold Cli.extractEntry at he
  split at he
  · simp only [List.not_mem_nil] at he
  · split at he
    · simp only [List.mem_cons, List.mem_singleton, List.not_mem_nil, or_false] at he; rcases he with rfl | rfl <;> rfl
    · split at he
      · simp only [List.mem_cons, List.mem_singleton, List.not_mem_nil, or_false] at he; rcases he with rfl | rfl | rfl <;> rfl
      · split at he
        · simp only [List.mem_cons, List.mem_singleton, List.not_mem_nil, or_false] at he; rcases he with rfl | rfl | rfl <;> rfl
        · simp only [List.mem_cons, List.mem_singleton, List.not_mem_nil, or_false] at he; rcases he with rfl | rfl | rfl | rfl <;> rfl

theorem tarLoop_local (w : World) (dir : String) (es : List Entry) (endErr : Option String) :
    ∀ e ∈ (Cli.tarLoop w dir es endErr).trace, e.isLocal = true := by
  induction es with
  | nil => intro e he; cases endErr <;> simp only [Cli.tarLoop, List.not_mem_nil] at he
  | cons x es ih =>
    intro e he
    unfold Cli.tarLoop at he
    split at he
    · simp only [List.mem_cons] at he
      rcases he with rfl | he
      · rfl
      · exact extractEntry_local _ _ _ e he
    · simp only [List.mem_cons] at he
      rcases he with rfl | he
      · rfl
      · exact ih e he

theorem zipLoop_local (w : World) (dir : String) (es : List Entry) :
    ∀ e ∈ (Cli.zipLoop w dir es).trace, e.isLocal = true := by
  induction es with
  | nil => intro e he; simp only [Cli.zipLoop, List.not_mem_nil] at he
  | cons x es ih =>
    intro e he
    unfold Cli.zipLoop at he
    split at he
    · split at he
      · simp only [List.not_mem_nil] at he
      · exact extractEntry_local _ _ _ e he
    · exact ih e he

theorem extractTarGz_local (w : World) (file : List UInt8) (dir : String) :
    ∀ e ∈ (Cli.extractTarGz w file dir).trace, e.isLocal = true := by
  intro e he
  unfold Cli.extractTarGz at he
  split at he
  · simp only [List.not_mem_nil] at he
  · exact tarLoop_local _ _ _ _ e he

theorem extractZip_local (w : World) (file : List UInt8) (dir : String) :
    ∀ e ∈ (Cli.extractZip w file dir).trace, e.isLocal = true := by
  intro e he
  unfold Cli.extractZip at he
  split at he
  · simp only [List.not_mem_nil] at he
  · split at he
    · simp only [List.not_mem_nil] at he
    · exact zipLoop_local _ _ _ e he

theorem mem_runs (t : List Event) (p : String) (a : List String) :
    (p, a) ∈ runs t ↔ Event.run p a ∈ t := by
  induction t with
  | nil => simp [runs]
  | cons e t ih =>
    cases e <;> simp_all [runs]

theorem mem_creates (t : List Event) (n : String) : n ∈ creates t ↔ Event.create n ∈ t := by
  induction t with
  | nil => simp [creates]
  | cons e t ih =>
    cases e <;> simp_all [creates]

theorem copyBody_isLocal (w : World) (n : String) (cs : List (List UInt8)) (d : Cli.Download) :
    ∀ e ∈ (Cli.copyBody w n cs d).1, e.isLocal = true := by
  intro e he
  obtain ⟨c, rfl⟩ := copyBody_local w n cs d e he
  rfl

theorem extract_local (w : World) (file : List UInt8) (dir : String) :
    ∀ e ∈ (if w.goos = "windows" then Cli.extractZip w file dir
      else Cli.extractTarGz w file dir).trace, e.isLocal = true := by
  split
  · exact extractZip_local w file dir
  · exact extractTarGz_local w file dir

/-- The requests of the part of downloadUV that follows os.CreateTemp: none, or the one for
the checksum file. -/
theorem body_httpGets (w : World) (tempDir curl tmpName : String) (resp : Response) :
    httpGets (Cli.downloadUVBody w tempDir curl tmpName resp).trace = [] ∨
    httpGets (Cli.downloadUVBody w tempDir curl tmpName resp).trace = [curl] := by
  have hc := httpGets_of_local _ (copyBody_isLocal w tmpName resp.chunks ⟨[], []⟩)
  have e1 : httpGets [Event.httpGet curl] = [curl] := rfl
  unfold Cli.downloadUVBody
  simp only []
  split
  · exact Or.inl hc
  · split
    · exact Or.inl hc
    · split
      · right; simp only [httpGets_append, hc, e1, List.nil_append]
      · split
        · right; simp only [httpGets_append, hc, e1, List.nil_append]
        · split
          · right; simp only [httpGets_append, hc, e1, List.nil_append]
          · split
            · right; simp only [httpGets_append, hc, e1, List.nil_append]
            · split
              · right; simp only [httpGets_append, hc, e1, List.nil_append]
              · split
                · right; simp only [httpGets_append, hc, e1, List.nil_append]
                · right
                  simp only [httpGets_append, hc, e1, List.nil_append,
                    httpGets_of_local _ (extract_local w _ tempDir), List.append_nil]

theorem body_runs (w : World) (tempDir curl tmpName : String) (resp : Response) :
    runs (Cli.downloadUVBody w tempDir curl tmpName resp).trace = [] := by
  have hc := runs_of_local _ (copyBody_isLocal w tmpName resp.chunks ⟨[], []⟩)
  have e1 : runs [Event.httpGet curl] = [] := rfl
  unfold Cli.downloadUVBody
  simp only []
  split
  · exact hc
  · split
    · exact hc
    · split
      · simp only [runs_append, hc, e1, List.nil_append]
      · split
        · simp only [runs_append, hc, e1, List.nil_append]
        · split
          · simp only [runs_append, hc, e1, List.nil_append]
          · split
            · simp only [runs_append, hc, e1, List.nil_append]
            · split
              · simp only [runs_append, hc, e1, List.nil_append]
              · split
                · simp only [runs_append, hc, e1, List.nil_append]
                · simp only [runs_append, hc, e1, List.nil_append,
                    runs_of_local _ (extract_local w _ tempDir), List.append_nil]

theorem downloadUV_httpGets (w : World) (tempDir target : String) :
    httpGets (Cli.downloadUV w tempDir target).trace = [Cli.downloadURL w.goos Cli.uvVersion target] ∨
    httpGets (Cli.downloadUV w tempDir target).trace
      = [Cli.downloadURL w.goos Cli.uvVersion target,
         Cli.downloadURL w.goos Cli.uvVersion target ++ ".sha256"] := by
  unfold Cli.downloadUV
  simp only []
  split
  · left; rfl
  · split
    · left; rfl
    · split
      · left; rfl
      · rename_i tmpName _
        rcases body_httpGets w tempDir (Cli.downloadURL w.goos Cli.uvVersion target ++ ".sha256")
          tmpName ‹_› with h | h
        · left
          simp only [httpGets_append, h]
          rfl
        · right
          simp only [httpGets_append, h]
          rfl

theorem downloadUV_runs (w : World) (tempDir target : String) :
    runs (Cli.downloadUV w tempDir target).trace = [] := by
  unfold Cli.downloadUV
  simp only []
  split
  · rfl
  · split
    · rfl
    · split
      · rfl
      · simp only [runs_append, body_runs]
        rfl

theorem copyBody_ok (w : World) (n : String) (cs : List (List UInt8)) (d d' : Cli.Download)
    (h : (Cli.copyBody w n cs d).2 = .ok d') :
    d' = ⟨d.file ++ cs.flatten, d.hasher ++ cs.flatten⟩ := by
  induction cs generalizing d with
  | nil =>
    simp only [Cli.copyBody, Except.ok.injEq] at h
    subst h
    simp
  | cons c cs ih =>
    unfold Cli.copyBody at h
    split at h
    · simp at h
    · have := ih _ h
      simpa [List.append_assoc] using this

theorem copyBody_noErr (w : World) (n : String) (cs : List (List UInt8)) (d : Cli.Download)
    (h : w.writeErr n = none) :
    Cli.copyBody w n cs d
      = (cs.map (Event.write n), .ok ⟨d.file ++ cs.flatten, d.hasher ++ cs.flatten⟩) := by
  induction cs generalizing d with
  | nil => simp [Cli.copyBody]
  | cons c cs ih =>
    unfold Cli.copyBody
    simp only [h]
    rw [ih]
    simp [List.append_assoc]

theorem creates_of_writes (t : List Event) (n : String) (h : ∀ e ∈ t, ∃ c, e = .write n c) :
    creates t = [] := by
  induction t with
  | nil => rfl
  | cons e t ih =>
    obtain ⟨c, rfl⟩ := h e (List.mem_cons_self _ _)
    exact ih (fun x hx => h x (List.mem_cons_of_mem _ hx))

theorem body_verified (w : World) (tempDir url tmpName : String) (resp : Response)
    (hresp : w.httpGet url = .ok resp)
    (h : creates (Cli.downloadUVBody w tempDir (url ++ ".sha256") tmpName resp).trace ≠ [] ∨
      ∃ p, (Cli.downloadUVBody w tempDir (url ++ ".sha256") tmpName resp).out = .ret (p, none)) :
    checksumMatches w url = true := by
  have hc := creates_of_writes _ _ (copyBody_local w tmpName resp.chunks ⟨[], []⟩)
  have hd := copyBody_ok w tmpName resp.chunks ⟨[], []⟩
  have e1 : ∀ u, creates [Event.httpGet u] = [] := fun _ => rfl
  unfold Cli.downloadUVBody at h
  simp only [] at h
  split at h
  · simp [hc] at h
  · rename_i d hd'
    have hd2 := hd d hd'
    split at h
    · simp [hc] at h
    · split at h
      · simp [hc, creates_append, e1] at h
      · rename_i cresp hcresp
        split at h
        · simp [hc, creates_append, e1] at h
        · split at h
          · simp [hc, creates_append, e1] at h
          · split at h
            · simp [hc, creates_append, e1] at h
            · rename_i E rest hE
              split at h
              · simp [hc, creates_append, e1] at h
              · rename_i hAE
                simp only [ne_eq, Decidable.not_not] at hAE
                unfold checksumMatches
                simp only [hresp, hcresp, hE, List.head?_cons]
                subst hd2
                simpa using hAE.symm

theorem downloadUV_verified (w : World) (tempDir target : String)
    (h : creates (Cli.downloadUV w tempDir target).trace ≠ [] ∨
      ∃ p, (Cli.downloadUV w tempDir target).out = .ret (p, none)) :
    checksumMatches w (Cli.downloadURL w.goos Cli.uvVersion target) = true := by
  unfold Cli.downloadUV at h
  simp only [] at h
  split at h
  · simp [creates] at h
  · rename_i resp hresp
    split at h
    · simp [creates] at h
    · split at h
      · simp [creates] at h
      · rename_i tmpName _
        apply body_verified w tempDir _ tmpName resp hresp
        rcases h with h | h
        · left
          simpa [creates_append, creates] using h
        · exact Or.inr h

theorem downloadUV_unverified (w : World) (tempDir target : String)
    (h : checksumMatches w (Cli.downloadURL w.goos Cli.uvVersion target) = false) :
    creates (Cli.downloadUV w tempDir target).trace = [] ∧
      ∀ p, (Cli.downloadUV w tempDir target).out ≠ .ret (p, none) := by
  constructor
  · by_contra hc
    have := downloadUV_verified w tempDir target (Or.inl hc)
    simp [h] at this
  · intro p hp
    have := downloadUV_verified w tempDir target (Or.inr ⟨p, hp⟩)
    simp [h] at this

theorem main_unverified (w : World)
    (h : ∀ target, Cli.resolveTarget w.goos w.goarch = .ret target →
      checksumMatches w (Cli.downloadURL w.goos Cli.uvVersion target) = false) :
    creates (Cli.main w).trace = [] ∧ runs (Cli.main w).trace = [] := by
  have e2 : ∀ d t, creates (Event.mkdirTemp d :: t) = creates t := fun _ _ => rfl
  have e3 : ∀ d t, runs (Event.mkdirTemp d :: t) = runs t := fun _ _ => rfl
  unfold Cli.main
  split
  · exact ⟨rfl, rfl⟩
  · rename_i target ht
    have hu := fun d => downloadUV_unverified w d target (h target ht)
    split
    · exact ⟨rfl, rfl⟩
    · rename_i tempDir _
      simp only []
      split
      · refine ⟨?_, ?_⟩
        · show creates (_ ++ _) = []
          rw [creates_append, e2, (hu tempDir).1]; rfl
        · show runs (_ ++ _) = []
          rw [runs_append, e3, downloadUV_runs]; rfl
      · refine ⟨?_, ?_⟩
        · show creates (_ ++ _) = []
          rw [creates_append, e2, (hu tempDir).1]; rfl
        · show runs (_ ++ _) = []
          rw [runs_append, e3, downloadUV_runs]; rfl
      · rename_i uvPath hout
        exact absurd hout ((hu tempDir).2 uvPath)

theorem gui_unverified (w : World) (tempDir : String)
    (h : ∀ target, Cli.resolveTarget w.goos w.goarch = .ret target →
      checksumMatches w (Cli.downloadURL w.goos Cli.uvVersion target) = false) :
    creates (Gui.App.downloadUV w tempDir).trace = [] ∧
    (∀ p, (Gui.App.downloadUV w tempDir).out ≠ .ret (p, none)) := by
  unfold Gui.App.downloadUV
  split
  · exact ⟨rfl, fun p hp => by cases hp⟩
  · rename_i target ht
    exact downloadUV_unverified w tempDir target (h target ht)

theorem initializeUV_unverified (w : World) (a : Gui.App)
    (h : ∀ target, Cli.resolveTarget w.goos w.goarch = .ret target →
      checksumMatches w (Cli.downloadURL w.goos Cli.uvVersion target) = false) :
    creates (Gui.App.initializeUV w a).trace = [] ∧
    (∀ a', (Gui.App.initializeUV w a).out = .ret a' → a'.uvPath = a.uvPath) := by
  unfold Gui.App.initializeUV
  split
  · refine ⟨rfl, ?_⟩
    intro a' ha
    simp only [Outcome.ret.injEq] at ha
    rw [← ha]
  · rename_i tempDir _
    have hu := gui_unverified w tempDir h
    simp only []
    split
    · exact ⟨hu.1, fun a' ha => by cases ha⟩
    · refine ⟨hu.1, ?_⟩
      intro a' ha
      simp only [Outcome.ret.injEq] at ha
      rw [← ha]
    · rename_i uvPath hout
      exact absurd hout (hu.2 uvPath)

theorem ne_append_sha256 (s : String) : s ≠ s ++ ".sha256" := by
  intro h
  have := congrArg String.length h
  simp [String.length_append] at this
  revert this
  decide

theorem resolveTarget_cases (goos goarch : String) :
    (goos ∉ supportedOS → Cli.resolveTarget goos goarch = .panic ("Unsupported platform: " ++ goos)) ∧
    (goos ∈ supportedOS → goarch ∉ supportedArch →
      Cli.resolveTarget goos goarch = .panic ("Unsupported architecture: " ++ goarch)) ∧
    (goos ∈ supportedOS → goarch ∈ supportedArch → ∃ t, Cli.resolveTarget goos goarch = .ret t) := by
  simp only [supportedOS, supportedArch, List.mem_cons, List.mem_singleton, List.not_mem_nil, or_false, not_or]
  refine ⟨?_, ?_, ?_⟩
  · rintro ⟨h1, h2, h3⟩
    simp [Cli.resolveTarget, Cli.getPlatform, h1, h2, h3]
  · rintro (h | h | h) ⟨h1, h2⟩ <;> subst h <;> simp [Cli.resolveTarget, Cli.getPlatform, Cli.getArch, h1, h2]
  · rintro (h | h | h) (h' | h') <;> subst h <;> subst h' <;> simp [Cli.resolveTarget, Cli.getPlatform, Cli.getArch]

theorem extractEntry_out (w : World) (p : String) (x : Entry) :
    (∃ e, (Cli.extractEntry w p x).out = .ret ("", some (.lib e))) ∨
    (Cli.extractEntry w p x).out = .ret Cli.notFound ∨
    (Cli.extractEntry w p x).out = .ret (p, none) := by
  unfold Cli.extractEntry
  split
  · exact Or.inl ⟨_, rfl⟩
  · split
    · exact Or.inl ⟨_, rfl⟩
    · split
      · exact Or.inl ⟨_, rfl⟩
      · split
        · exact Or.inl ⟨_, rfl⟩
        · by_cases hp : p = ""
          · right; left; simp only [hp, if_true]
          · right; right; simp only [hp, if_false]

theorem tarLoop_out (w : World) (dir : String) (es : List Entry) (endErr : Option String) :
    (∃ e, (Cli.tarLoop w dir es endErr).out = .ret ("", some (.lib e))) ∨
    (Cli.tarLoop w dir es endErr).out = .ret Cli.notFound ∨
    ∃ p, (Cli.tarLoop w dir es endErr).out = .ret (p, none) := by
  induction es with
  | nil =>
    cases endErr
    · exact Or.inr (Or.inl rfl)
    · exact Or.inl ⟨_, rfl⟩
  | cons x es ih =>
    unfold Cli.tarLoop
    split
    · rcases extractEntry_out w (w.filepathJoin dir (w.filepathBase x.name)) x with h | h | h
      · exact Or.inl h
      · exact Or.inr (Or.inl h)
      · exact Or.inr (Or.inr ⟨_, h⟩)
    · exact ih

theorem zipLoop_out (w : World) (dir : String) (es : List Entry) :
    (∃ e, (Cli.zipLoop w dir es).out = .ret ("", some (.lib e))) ∨
    (Cli.zipLoop w dir es).out = .ret Cli.notFound ∨
    ∃ p, (Cli.zipLoop w dir es).out = .ret (p, none) := by
  induction es with
  | nil => exact Or.inr (Or.inl rfl)
  | cons x es ih =>
    unfold Cli.zipLoop
    split
    · split
      · exact Or.inl ⟨_, rfl⟩
      · rcases extractEntry_out w (w.filepathJoin dir (w.filepathBase x.name)) x with h | h | h
        · exact Or.inl h
        · exact Or.inr (Or.inl h)
        · exact Or.inr (Or.inr ⟨_, h⟩)
    · exact ih

/-- How an extractor ends: with a library error, with "uv binary not found in archive", or
with a path. -/
theorem extract_out (w : World) (file : List UInt8) (dir : String) :
    (∃ e, (if w.goos = "windows" then Cli.extractZip w file dir
      else Cli.extractTarGz w file dir).out = .ret ("", some (.lib e))) ∨
    (if w.goos = "windows" then Cli.extractZip w file dir
      else Cli.extractTarGz w file dir).out = .ret Cli.notFound ∨
    ∃ p, (if w.goos = "windows" then Cli.extractZip w file dir
      else Cli.extractTarGz w file dir).out = .ret (p, none) := by
  split
  · unfold Cli.extractZip
    split
    · exact Or.inl ⟨_, rfl⟩
    · split
      · exact Or.inl ⟨_, rfl⟩
      · exact zipLoop_out _ _ _
  · unfold Cli.extractTarGz
    split
    · exact Or.inl ⟨_, rfl⟩
    · exact tarLoop_out _ _ _ _

/-- An extractor never ends with an error built by fmt.Errorf other than "uv binary not
found in archive". -/
theorem extract_out_errorf (w : World) (file : List UInt8) (dir msg : String)
    (h : (if w.goos = "windows" then Cli.extractZip w file dir
      else Cli.extractTarGz w file dir).out = .ret ("", some (.errorf msg))) :
    msg = "uv binary not found in archive" := by
  rcases extract_out w file dir with ⟨e, he⟩ | he | ⟨p, he⟩
  · rw [he] at h; cases h
  · rw [he] at h
    simp only [Cli.notFound, Outcome.ret.injEq, Prod.mk.injEq, Option.some.injEq,
      GoError.errorf.injEq, true_and] at h
    exact h.symm
  · rw [he] at h; cases h

/-- The errors built by fmt.Errorf (without %w) with which the part of downloadUV that
follows os.CreateTemp can end. -/
theorem body_out_errorf (w : World) (tempDir curl tmpName : String) (resp : Response)
    (msg : String)
    (h : (Cli.downloadUVBody w tempDir curl tmpName resp).out = .ret ("", some (.errorf msg))) :
    (∃ cresp, w.httpGet curl = .ok cresp ∧ cresp.statusCode ≠ 200 ∧
      msg = "failed to download checksum: status " ++ fmtInt cresp.statusCode) ∨
    (∃ cresp E rest, w.httpGet curl = .ok cresp ∧
      stringsFields (goString cresp.chunks.flatten) = E :: rest ∧
      fmtHex (sha256 resp.chunks.flatten) ≠ E ∧
      msg = "checksum verification failed: expected " ++ E ++ ", got "
        ++ fmtHex (sha256 resp.chunks.flatten)) ∨
    msg = "uv binary not found in archive" := by
  have hd := copyBody_ok w tmpName resp.chunks ⟨[], []⟩
  unfold Cli.downloadUVBody at h
  simp only [] at h
  split at h
  · cases h
  · rename_i d hd'
    have hd2 := hd d hd'
    subst hd2
    simp only [List.nil_append] at h
    split at h
    · cases h
    · split at h
      · cases h
      · rename_i cresp hcresp
        split at h
        · rename_i hs
          left
          refine ⟨cresp, hcresp, hs, ?_⟩
          simp only [Outcome.ret.injEq, Prod.mk.injEq, Option.some.injEq, GoError.errorf.injEq,
            true_and] at h
          exact h.symm
        · split at h
          · cases h
          · split at h
            · cases h
            · rename_i E rest hE
              split at h
              · rename_i hAE
                right; left
                refine ⟨cresp, E, rest, hcresp, hE, hAE, ?_⟩
                simp only [Outcome.ret.injEq, Prod.mk.injEq, Option.some.injEq,
                  GoError.errorf.injEq, true_and] at h
                exact h.symm
              · split at h
                · cases h
                · right; right
                  exact extract_out_errorf w _ tempDir msg h

/-- The errors built by fmt.Errorf (without %w) with which downloadUV can end. -/
theorem downloadUV_out_errorf (w : World) (tempDir target msg : String)
    (h : (Cli.downloadUV w tempDir target).out = .ret ("", some (.errorf msg))) :
    (∃ resp, w.httpGet (Cli.downloadURL w.goos Cli.uvVersion target) = .ok resp ∧
      resp.statusCode ≠ 200 ∧ msg = "failed to download uv: status " ++ fmtInt resp.statusCode) ∨
    (∃ cresp, w.httpGet (Cli.downloadURL w.goos Cli.uvVersion target ++ ".sha256") = .ok cresp ∧
      cresp.statusCode ≠ 200 ∧
      msg = "failed to download checksum: status " ++ fmtInt cresp.statusCode) ∨
    (∃ resp cresp E rest, w.httpGet (Cli.downloadURL w.goos Cli.uvVersion target) = .ok resp ∧
      w.httpGet (Cli.downloadURL w.goos Cli.uvVersion target ++ ".sha256") = .ok cresp ∧
      stringsFields (goString cresp.chunks.flatten) = E :: rest ∧
      fmtHex (sha256 resp.chunks.flatten) ≠ E ∧
      msg = "checksum verification failed: expected " ++ E ++ ", got "
        ++ fmtHex (sha256 resp.chunks.flatten)) ∨
    msg = "uv binary not found in archive" := by
  unfold Cli.downloadUV at h
  simp only [] at h
  split at h
  · cases h
  · rename_i resp hresp
    split at h
    · rename_i hs
      left
      refine ⟨resp, hresp, hs, ?_⟩
      simp only [Outcome.ret.injEq, Prod.mk.injEq, Option.some.injEq, GoError.errorf.injEq,
        true_and] at h
      exact h.symm
    · split at h
      · cases h
      · rcases body_out_errorf w tempDir _ _ resp msg h with h1 | ⟨cresp, E, rest, h2⟩ | h3
        · exact Or.inr (Or.inl h1)
        · exact Or.inr (Or.inr (Or.inl ⟨resp, cresp, E, rest, hresp, h2⟩))
        · exact Or.inr (Or.inr (Or.inr h3))

/-- The run of downloadUV up to the answer to the checksum request, when the archive request
is answered with status 200, the temporary file is created and the body is copied without
error. -/
theorem downloadUV_copied (w : World) (tempDir target tmpName : String) (resp : Response)
    (hget : w.httpGet (Cli.downloadURL w.goos Cli.uvVersion target) = .ok resp)
    (hstatus : resp.statusCode = 200)
    (htmp : w.createTemp tempDir (if w.goos = "windows" then "uv-*.zip" else "uv-*.tar.gz")
      = .ok tmpName) :
    Cli.downloadUV w tempDir target
      = ⟨[.httpGet (Cli.downloadURL w.goos Cli.uvVersion target), .createTemp tmpName]
          ++ (Cli.downloadUVBody w tempDir (Cli.downloadURL w.goos Cli.uvVersion target ++ ".sha256")
            tmpName resp).trace ++ [.remove tmpName],
        (Cli.downloadUVBody w tempDir (Cli.downloadURL w.goos Cli.uvVersion target ++ ".sha256")
            tmpName resp).out⟩ := by
  simp only [Cli.downloadUV, hget, hstatus, htmp, ne_eq, not_true_eq_false, if_false]

theorem body_creates_out (w : World) (tempDir curl tmpName : String) (resp : Response) :
    creates (Cli.downloadUVBody w tempDir curl tmpName resp).trace ≠ [] →
    ((∃ e, (Cli.downloadUVBody w tempDir curl tmpName resp).out = .ret ("", some (.lib e))) ∨
    (Cli.downloadUVBody w tempDir curl tmpName resp).out = .ret Cli.notFound ∨
    ∃ p, (Cli.downloadUVBody w tempDir curl tmpName resp).out = .ret (p, none)) := by
  have e1 : ∀ u, creates [Event.httpGet u] = [] := fun _ => rfl
  have hc := creates_of_writes _ _ (copyBody_local w tmpName resp.chunks ⟨[], []⟩)
  unfold Cli.downloadUVBody
  simp only []
  split
  · intro h; simp [hc] at h
  · split
    · intro h; simp [hc] at h
    · split
      · intro h; simp [hc, creates_append, e1] at h
      · split
        · intro h; simp [hc, creates_append, e1] at h
        · split
          · intro h; simp [hc, creates_append, e1] at h
          · split
            · intro h; simp [hc, creates_append, e1] at h
            · split
              · intro h; simp [hc, creates_append, e1] at h
              · split
                · intro h; simp [hc, creates_append, e1] at h
                · intro _; exact extract_out w _ tempDir

/-- When downloadUV creates a file, it ends the way its extractor ends. -/
theorem downloadUV_creates_out (w : World) (tempDir target : String) :
    creates (Cli.downloadUV w tempDir target).trace ≠ [] →
    ((∃ e, (Cli.downloadUV w tempDir target).out = .ret ("", some (.lib e))) ∨
    (Cli.downloadUV w tempDir target).out = .ret Cli.notFound ∨
    ∃ p, (Cli.downloadUV w tempDir target).out = .ret (p, none)) := by
  unfold Cli.downloadUV
  simp only []
  split
  · intro h; exact absurd rfl h
  · split
    · intro h; exact absurd rfl h
    · split
      · intro h; exact absurd rfl h
      · intro h
        apply body_creates_out
        intro h0
        apply h
        simp only [creates_append, h0]
        rfl

theorem tarLoop_skip (w : World) (dir : String) (pre rest : List Entry) (endErr : Option String)
    (hpre : ∀ e ∈ pre, w.filepathBase e.name ≠ "uv" ∧ w.filepathBase e.name ≠ "uv.exe") :
    Cli.tarLoop w dir (pre ++ rest) endErr
      = ⟨pre.map (fun e => Event.readHeader e.name) ++ (Cli.tarLoop w dir rest endErr).trace,
          (Cli.tarLoop w dir rest endErr).out⟩ := by
  induction pre with
  | nil => rfl
  | cons x pre ih =>
    have hx := hpre x (List.mem_cons_self _ _)
    have ih' := ih (fun e he => hpre e (List.mem_cons_of_mem _ he))
    simp only [List.cons_append, Cli.tarLoop, hx.1, hx.2, decide_False, Bool.or_self,
      Bool.false_eq_true, if_false, List.append_eq, ih', List.map_cons]

theorem zipLoop_skip (w : World) (dir : String) (pre rest : List Entry)
    (hpre : ∀ e ∈ pre, w.filepathBase e.name ≠ "uv" ∧ w.filepathBase e.name ≠ "uv.exe") :
    Cli.zipLoop w dir (pre ++ rest) = Cli.zipLoop w dir rest := by
  induction pre with
  | nil => rfl
  | cons x pre ih =>
    have hx := hpre x (List.mem_cons_self _ _)
    have ih' := ih (fun e he => hpre e (List.mem_cons_of_mem _ he))
    simp only [List.cons_append, Cli.zipLoop, hx.1, hx.2, decide_False, Bool.or_self,
      Bool.false_eq_true, if_false, List.append_eq, ih']

theorem extractEntry_ok (w : World) (p : String) (m : Entry)
    (hcreate : w.createErr p = none) (hwrite : w.writeErr p = none) (hread : m.readErr = none)
    (hchmod : w.chmodErr p = none) (hp : p ≠ "") :
    Cli.extractEntry w p m
      = ⟨[.create p, .readEntry m.name, .write p m.data, .chmod p 0o755], .ret (p, none)⟩ := by
  simp only [Cli.extractEntry, hcreate, hwrite, hread, hchmod, ite_self, hp, if_false]

theorem replay_append (fs : FS) (a b : List Event) :
    replay fs (a ++ b) = replay (replay fs a) b := by
  simp only [replay, List.foldl_append]

theorem replay_readHeaders (fs : FS) (es : List Entry) :
    replay fs (es.map (fun e => Event.readHeader e.name)) = fs := by
  induction es with
  | nil => rfl
  | cons x es ih =>
    simp only [List.map_cons, replay, List.foldl_cons, applyEvent] at ih ⊢
    exact ih

/-- The file that create, write and chmod 0755 leave at `p`, whatever was there. -/
theorem replay_extracted (fs : FS) (p entry : String) (data : List UInt8) :
    replay fs [.create p, .readEntry entry, .write p data, .chmod p 0o755] p
      = some (.file data 0o755) := by
  have h1 : ∃ mode, applyEvent fs (.create p) = fs.set p (some (.file [] mode)) := by
    cases hfs : fs p with
    | none => exact ⟨0o666, by simp only [applyEvent, hfs]⟩
    | some n =>
      cases n with
      | dir => exact ⟨0o666, by simp only [applyEvent, hfs]⟩
      | file d m => exact ⟨m, by simp only [applyEvent, hfs]⟩
  obtain ⟨mode, h1⟩ := h1
  simp only [replay, List.foldl_cons, List.foldl_nil, h1]
  simp only [applyEvent, FS.set, if_true, List.nil_append]

theorem dotIfEmpty_ne_empty (out : String) : dotIfEmpty out ≠ "" := by
  unfold dotIfEmpty
  split
  · decide
  · assumption

theorem unixClean_ne_empty (p : String) : unixClean p ≠ "" :=
  dotIfEmpty_ne_empty _

theorem unixJoin_ne_empty (a b : String) (hb : b ≠ "") : unixJoin a b ≠ "" := by
  unfold unixJoin
  split
  · exact unixClean_ne_empty _
  · simp only [hb, ne_eq, not_false_eq_true, if_true]
    exact unixClean_ne_empty _

theorem creates_readHeaders (es : List Entry) :
    creates (es.map (fun e => Event.readHeader e.name)) = [] := by
  induction es with
  | nil => rfl
  | cons x es ih => exact ih

theorem starts_append (a b : List Event) : starts (a ++ b) = starts a ++ starts b := by
  simp only [starts, List.filterMap_append]

theorem starts_stopCmd (w : World) (cmds : List Gui.Cmd) :
    starts (cmds.flatMap (Gui.stopCmd w)) = [] := by
  induction cmds with
  | nil => rfl
  | cons c cs ih =>
    rw [List.flatMap_cons, starts_append, ih, List.append_nil]
    unfold Gui.stopCmd
    split
    · rfl
    · split <;> rfl

/-- The run events of the CLI main once downloadUV has returned a path. -/
theorem main_runs (w : World) (target tempDir uvPath : String)
    (ht : Cli.resolveTarget w.goos w.goarch = .ret target)
    (hd : w.mkdirTemp = .ok tempDir)
    (hdl : (Cli.downloadUV w tempDir target).out = .ret (uvPath, none)) :
    runs (Cli.main w).trace
      = [(uvPath, "run" :: (if w.args.length > 1 then w.args.drop 1 else Cli.defaultScripts))] := by
  have e3 : ∀ d t, runs (Event.mkdirTemp d :: t) = runs t := fun _ _ => rfl
  simp only [Cli.main, ht, hd, hdl]
  split
  · show runs (_ ++ _) = _
    rw [runs_append, e3, downloadUV_runs]
    rfl
  · show runs (_ ++ _) = _
    rw [runs_append, e3, downloadUV_runs]
    rfl

theorem hexDigit_lower (n : Nat) (h : n < 16) : hexDigit n ∈ lowerHexDigits := by
  interval_cases n <;> decide

/-- The digits that %x writes are 0123456789abcdef, two for each byte. -/
theorem fmtHex_lower (bs : List UInt8) :
    (∀ c ∈ (fmtHex bs).data, c ∈ lowerHexDigits) ∧ (fmtHex bs).data.length = 2 * bs.length := by
  constructor
  · intro c hc
    unfold fmtHex at hc
    rw [List.mem_flatMap] at hc
    obtain ⟨b, _, hb⟩ := hc
    rw [List.mem_cons, List.mem_singleton] at hb
    have hlt : b.toNat < 256 := b.toNat_lt
    rcases hb with rfl | rfl
    · exact hexDigit_lower _ (by omega)
    · exact hexDigit_lower _ (by omega)
  · unfold fmtHex
    induction bs with
    | nil => rfl
    | cons b bs ih =>
      simp only [List.flatMap_cons, List.cons_append, List.nil_append, List.length_cons] at ih ⊢
      omega

/-- The temporary file after its creation and the writes of io.Copy: the chunks of the body,
one after the other. -/
theorem replay_writes (fs : FS) (n : String) (cs : List (List UInt8)) (d : List UInt8)
    (mode : Nat) (h : fs n = some (.file d mode)) :
    replay fs (cs.map (Event.write n)) n = some (.file (d ++ cs.flatten) mode) := by
  induction cs generalizing fs d with
  | nil => simpa [replay] using h
  | cons c cs ih =>
    simp only [List.map_cons, replay, List.foldl_cons, List.flatten_cons]
    have h1 : applyEvent fs (.write n c) n = some (.file (d ++ c) mode) := by
      simp only [applyEvent, h, FS.set, if_true]
    have := ih (applyEvent fs (.write n c)) (d ++ c) h1
    simpa [replay, List.append_assoc] using this

theorem replay_tempFile (fs : FS) (n : String) (cs : List (List UInt8)) :
    replay fs (Event.createTemp n :: cs.map (Event.write n)) n
      = some (.file cs.flatten 0o600) := by
  have h : applyEvent fs (.createTemp n) n = some (.file [] 0o600) := by
    simp only [applyEvent, FS.set, if_true]
  have := replay_writes (applyEvent fs (.createTemp n)) n cs [] 0o600 h
  simpa [replay] using this

theorem length_beBytes (n x : Nat) : (beBytes n x).length = n := by
  induction n with
  | zero => rfl
  | succ n ih => simp only [beBytes, List.length_cons, ih]

theorem length_sha256Block (h : List Nat) (block : List UInt8) (hh : h.length = 8) :
    (sha256Block h block).length = 8 := by
  simp only [sha256Block, List.length_zipWith, hh, List.length_cons, List.length_nil]
  rfl

theorem length_sha256Blocks (n : Nat) (h : List Nat) (bs : List UInt8) (hh : h.length = 8) :
    (sha256Blocks n h bs).length = 8 := by
  induction n generalizing h bs with
  | zero => exact hh
  | succ n ih => exact ih _ _ (length_sha256Block h _ hh)

/-- A SHA-256 digest has 32 bytes. -/
theorem length_sha256 (msg : List UInt8) : (sha256 msg).length = 32 := by
  unfold sha256
  simp only []
  have h8 := length_sha256Blocks ((sha256Pad msg).length / 64) sha256Init (sha256Pad msg) rfl
  generalize sha256Blocks ((sha256Pad msg).length / 64) sha256Init (sha256Pad msg) = ws at h8
  have : ∀ l : List Nat, (l.flatMap (beBytes 4)).length = 4 * l.length := by
    intro l
    induction l with
    | nil => rfl
    | cons a l ih =>
      simp only [List.flatMap_cons, List.length_append, length_beBytes, ih, List.length_cons]
      omega
  rw [this, h8]

theorem runScripts_uninitialised (w : World) (a : Gui.App) (h : a.uvPath = "") :
    (Gui.App.runScripts w a).1 = [] := by
  simp only [Gui.App.runScripts, h, if_true]

/-- How the CLI main ends: with exit code 0, with exit code 1, or with a panic, the latter
also when downloadUV itself panics; no other exit code is produced. -/
theorem main_out_cases (w : World) :
    ((Cli.main w).out = .ret 0 ↔
      ∃ target tempDir uvPath, Cli.resolveTarget w.goos w.goarch = .ret target ∧
        w.mkdirTemp = .ok tempDir ∧
        (Cli.downloadUV w tempDir target).out = .ret (uvPath, none) ∧
        w.runErr uvPath (["run"] ++
          (if w.args.length > 1 then w.args.drop 1 else Cli.defaultScripts)) = none) ∧
    ((Cli.main w).out = .ret 1 ↔
      ∃ target tempDir uvPath err, Cli.resolveTarget w.goos w.goarch = .ret target ∧
        w.mkdirTemp = .ok tempDir ∧
        (Cli.downloadUV w tempDir target).out = .ret (uvPath, none) ∧
        w.runErr uvPath (["run"] ++
          (if w.args.length > 1 then w.args.drop 1 else Cli.defaultScripts)) = some err) ∧
    ((∃ m, (Cli.main w).out = .panic m) ↔
      (∃ m, Cli.resolveTarget w.goos w.goarch = .panic m) ∨
      (∃ target err, Cli.resolveTarget w.goos w.goarch = .ret target ∧ w.mkdirTemp = .error err) ∨
      (∃ target tempDir p err, Cli.resolveTarget w.goos w.goarch = .ret target ∧
        w.mkdirTemp = .ok tempDir ∧
        (Cli.downloadUV w tempDir target).out = .ret (p, some err)) ∨
      (∃ target tempDir m, Cli.resolveTarget w.goos w.goarch = .ret target ∧
        w.mkdirTemp = .ok tempDir ∧ (Cli.downloadUV w tempDir target).out = .panic m)) ∧
    (∀ n, (Cli.main w).out = .ret n → n = 0 ∨ n = 1) := by
  cases hr : Cli.resolveTarget w.goos w.goarch with
  | panic m => simp [Cli.main, hr]
  | ret target =>
    cases hm : w.mkdirTemp with
    | error e => simp [Cli.main, hr, hm]
    | ok tempDir =>
      cases hd : (Cli.downloadUV w tempDir target).out with
      | panic m => simp [Cli.main, hr, hm, hd]
      | ret pe =>
        obtain ⟨p, e⟩ := pe
        cases e with
        | some err => simp [Cli.main, hr, hm, hd]
        | none =>
          cases hrun : w.runErr p (["run"] ++
              (if w.args.length > 1 then w.args.drop 1 else Cli.defaultScripts)) with
          | none => simp only [Cli.main, hr, hm, hd, hrun]; simp at hrun; simp [hd, hrun]
          | some err => simp only [Cli.main, hr, hm, hd, hrun]; simp at hrun; simp [hd, hrun]

theorem extract_no_panic (w : World) (file : List UInt8) (dir m : String) :
    (if w.goos = "windows" then Cli.extractZip w file dir
      else Cli.extractTarGz w file dir).out ≠ .panic m := by
  intro h
  rcases extract_out w file dir with ⟨e, he⟩ | he | ⟨p, he⟩ <;> rw [he] at h <;> cases h

/-- The only panic of the part of downloadUV that follows os.CreateTemp: the index
expression on the fields of a checksum text that has none. -/
theorem body_panic (w : World) (tempDir curl tmpName : String) (resp : Response) (m : String)
    (h : (Cli.downloadUVBody w tempDir curl tmpName resp).out = .panic m) :
    m = Cli.indexPanic ∧ ∃ cresp, w.httpGet curl = .ok cresp ∧ cresp.statusCode = 200 ∧
      stringsFields (goString cresp.chunks.flatten) = [] := by
  unfold Cli.downloadUVBody at h
  simp only [] at h
  split at h
  · cases h
  · split at h
    · cases h
    · split at h
      · cases h
      · rename_i cresp hcresp
        split at h
        · cases h
        · rename_i hs
          split at h
          · cases h
          · split at h
            · rename_i hf
              simp only [Outcome.panic.injEq] at h
              exact ⟨h.symm, cresp, hcresp, by simpa using hs, hf⟩
            · split at h
              · cases h
              · split at h
                · cases h
                · exact absurd h (extract_no_panic w _ tempDir m)

/-- The only panic of downloadUV. -/
theorem downloadUV_panic (w : World) (tempDir target m : String)
    (h : (Cli.downloadUV w tempDir target).out = .panic m) :
    m = Cli.indexPanic ∧
    ∃ cresp, w.httpGet (Cli.downloadURL w.goos Cli.uvVersion target ++ ".sha256") = .ok cresp ∧
      cresp.statusCode = 200 ∧ stringsFields (goString cresp.chunks.flatten) = [] := by
  unfold Cli.downloadUV at h
  simp only [] at h
  split at h
  · cases h
  · split at h
    · cases h
    · split at h
      · cases h
      · exact body_panic w tempDir _ _ _ m h

/-- The run of downloadUV on a checksum text without fields. -/
theorem downloadUV_no_fields (w : World) (tempDir target tmpName : String)
    (resp cresp : Response)
    (hget : w.httpGet (Cli.downloadURL w.goos Cli.uvVersion target) = .ok resp)
    (hstatus : resp.statusCode = 200)
    (htmp : w.createTemp tempDir (if w.goos = "windows" then "uv-*.zip" else "uv-*.tar.gz")
      = .ok tmpName)
    (hwrite : w.writeErr tmpName = none) (hread : resp.readErr = none)
    (hcget : w.httpGet (Cli.downloadURL w.goos Cli.uvVersion target ++ ".sha256") = .ok cresp)
    (hcstatus : cresp.statusCode = 200) (hcread : cresp.readErr = none)
    (hE : stringsFields (goString cresp.chunks.flatten) = []) :
    Cli.downloadUV w tempDir target
      = ⟨[.httpGet (Cli.downloadURL w.goos Cli.uvVersion target), .createTemp tmpName]
          ++ (resp.chunks.map (Event.write tmpName)
            ++ [.httpGet (Cli.downloadURL w.goos Cli.uvVersion target ++ ".sha256")])
          ++ [.remove tmpName], .panic Cli.indexPanic⟩ := by
  have hcopy := copyBody_noErr w tmpName resp.chunks ⟨[], []⟩ hwrite
  simp only [List.nil_append] at hcopy
  rw [downloadUV_copied w tempDir target tmpName resp hget hstatus htmp]
  simp only [Cli.downloadUVBody, hcopy, hread, hcget, hcstatus, hcread, hE, ne_eq,
    not_true_eq_false, if_false]

theorem replay_removeAll (fs : FS) (t : List Event) (d p : String)
    (hp : p = d ∨ isBeneath d p = true) : replay fs (t ++ [.removeAll d]) p = none := by
  simp only [replay, List.foldl_append, List.foldl_cons, List.foldl_nil, applyEvent]
  rcases hp with h | h
  · simp [h]
  · simp [h]

/-- Every run of main that created its temporary directory and does not end with exit code 1
ends with os.RemoveAll of that directory, after which neither the directory nor anything
beneath it exists. -/
theorem main_removes_tempDir (w : World) (target tempDir : String)
    (ht : Cli.resolveTarget w.goos w.goarch = .ret target) (hm : w.mkdirTemp = .ok tempDir)
    (hout : (Cli.main w).out ≠ .ret 1) :
    (Cli.main w).trace.getLast? = some (.removeAll tempDir) ∧
    ∀ fs p, p = tempDir ∨ isBeneath tempDir p = true → replay fs (Cli.main w).trace p = none := by
  have key : ∃ t, (Cli.main w).trace = t ++ [.removeAll tempDir] := by
    revert hout
    simp only [Cli.main, ht, hm]
    split
    · intro _; exact ⟨_, rfl⟩
    · intro _; exact ⟨_, rfl⟩
    · split
      · intro h; exact absurd rfl h
      · intro _
        exact ⟨_, (List.append_assoc _ [_] [_]).symm⟩
  obtain ⟨t, hk⟩ := key
  rw [hk]
  exact ⟨by simp, fun fs p hp => replay_removeAll fs t tempDir p hp⟩

/-- App.runScripts is the termination of the registered commands followed by the
goroutine. -/
theorem runScripts_eq (w : World) (a : Gui.App) (huv : a.uvPath ≠ "") (hs : a.scripts ≠ []) :
    Gui.App.runScripts w a
      = ((Gui.App.stopExisting w a).1 ++ (Gui.App.startScripts w (Gui.App.stopExisting w a).2).1,
          (Gui.App.startScripts w (Gui.App.stopExisting w a).2).2) := by
  have hlen : ¬ a.scripts.length = 0 := fun h0 => hs (List.length_eq_zero.mp h0)
  have h1 : (Gui.App.stopExisting w a).2.uvPath = a.uvPath := by
    unfold Gui.App.stopExisting; split <;> rfl
  have h2 : (Gui.App.stopExisting w a).2.scripts = a.scripts := by
    unfold Gui.App.stopExisting; split <;> rfl
  simp only [Gui.App.runScripts, huv, if_false, hlen, Gui.App.startScripts, h1, h2]
  cases w.pipeErr with
  | some e =>
    simp only [List.append_nil]
    unfold Gui.App.stopExisting
    split <;> rfl
  | none =>
    simp only []
    cases w.startCmd a.uvPath (["run"] ++ a.scripts) with
    | error e =>
      simp only [List.append_nil]
      unfold Gui.App.stopExisting
      split <;> rfl
    | ok pid =>
      simp only [Gui.App.addRunningCmd]
      unfold Gui.App.stopExisting
      split <;> rfl

theorem stopCmd_mem (w : World) (cmds : List Gui.Cmd) (c : Gui.Cmd) (p : Nat)
    (hc : c ∈ cmds) (hp : c.process = some p) :
    Event.processKill p ∈ cmds.flatMap (Gui.stopCmd w) ∧
    (Event.run "kill" ["-TERM", "-" ++ fmtInt p] ∈ cmds.flatMap (Gui.stopCmd w) ∨
      Event.run "taskkill" ["/F", "/T", "/PID", fmtInt p] ∈ cmds.flatMap (Gui.stopCmd w)) := by
  simp only [List.mem_flatMap]
  by_cases hw : w.goos = "windows"
  · refine ⟨⟨c, hc, ?_⟩, Or.inr ⟨c, hc, ?_⟩⟩ <;> simp [Gui.stopCmd, hp, hw]
  · refine ⟨⟨c, hc, ?_⟩, Or.inl ⟨c, hc, ?_⟩⟩ <;> simp [Gui.stopCmd, hp, hw]

/-! ## The claims -/

/-- C1 (as amended: the CLI and the GUI).  When the SHA-256 digest of the downloaded bytes
differs from the first token of the published checksum file (or either is not obtained), the
CLI downloadUV creates no extracted file and does not return a path; on a host whose target
is `target`, the CLI main then creates no file and runs no command, and the GUI downloadUV
and initializeUV create no file and leave uvPath as it was, so that runScripts, with uvPath
still empty, starts nothing. -/
theorem C1_unverified_never_extracted (w : World) (tempDir target : String) (a : Gui.App)
    (hm : checksumMatches w (Cli.downloadURL w.goos Cli.uvVersion target) = false) :
    (creates (Cli.downloadUV w tempDir target).trace = [] ∧
      ∀ p, (Cli.downloadUV w tempDir target).out ≠ .ret (p, none)) ∧
    (Cli.resolveTarget w.goos w.goarch = .ret target →
      creates (Cli.main w).trace = [] ∧ runs (Cli.main w).trace = [] ∧
      creates (Gui.App.downloadUV w tempDir).trace = [] ∧
      (∀ p, (Gui.App.downloadUV w tempDir).out ≠ .ret (p, none)) ∧
      creates (Gui.App.initializeUV w a).trace = [] ∧
      (∀ a', (Gui.App.initializeUV w a).out = .ret a' →
        a'.uvPath = a.uvPath ∧ (a.uvPath = "" → (Gui.App.runScripts w a').1 = []))) := by
  refine ⟨downloadUV_unverified w tempDir target hm, ?_⟩
  intro ht
  have h : ∀ t, Cli.resolveTarget w.goos w.goarch = .ret t →
      checksumMatches w (Cli.downloadURL w.goos Cli.uvVersion t) = false := by
    intro t h2
    rw [ht] at h2
    cases h2
    exact hm
  refine ⟨(main_unverified w h).1, (main_unverified w h).2, (gui_unverified w tempDir h).1,
    (gui_unverified w tempDir h).2, (initializeUV_unverified w a h).1, ?_⟩
  intro a' ha
  have hp := (initializeUV_unverified w a h).2 a' ha
  exact ⟨hp, fun h0 => runScripts_uninitialised w a' (hp.trans h0)⟩

set_option maxRecDepth 100000 in
/-- C1, witness: a well-formed archive served in place of the published one, next to the
checksum file of the published one. -/
theorem C1_unverified_never_extracted_witness :
    checksumMatches swappedWorld
      (Cli.downloadURL swappedWorld.goos Cli.uvVersion "x86_64-unknown-linux-gnu") = false ∧
    creates (Cli.main swappedWorld).trace = [] ∧ runs (Cli.main swappedWorld).trace = [] :=
  ⟨by decide,
   ((C1_unverified_never_extracted swappedWorld "/tmp/uv-runner-1" "x86_64-unknown-linux-gnu"
      ⟨[], "", "", []⟩ (by decide)).2 (by decide)).1,
   ((C1_unverified_never_extracted swappedWorld "/tmp/uv-runner-1" "x86_64-unknown-linux-gnu"
      ⟨[], "", "", []⟩ (by decide)).2 (by decide)).2.1⟩

set_option maxRecDepth 100000 in
/-- C1, as stated, fails for the older CLI.  The server delivers the well-formed archive
`swappedBytes`, whose SHA-256 digest is not the first token of the published checksum file
(the digest of `publishedBytes`).  The older main issues the archive request only; the older
downloadUV decodes the body, creates the extracted file with the bytes of the swapped tool
and mode 0755, and the older main runs it. -/
theorem C1_older_cli_extracts_unverified :
    fmtHex (sha256 swappedBytes)
      = "b789425923f14b78a6747635a666d6d247cb8c4140598eee64a52cb4a73aa175" ∧
    stringsFields (goString publishedChecksum.chunks.flatten)
      = ["79e93cd03f4d7520fa225a7ecc28c198027b2abe440865dff9b27defadcfa590",
         "uv-x86_64-unknown-linux-gnu.tar.gz"] ∧
    checksumMatches swappedWorld
      "https://github.com/astral-sh/uv/releases/download/0.8.11/uv-x86_64-unknown-linux-gnu.tar.gz"
        = false ∧
    httpGets (Old.main swappedWorld).trace =
      ["https://github.com/astral-sh/uv/releases/download/0.8.11/uv-x86_64-unknown-linux-gnu.tar.gz"] ∧
    creates (Old.downloadUV swappedWorld "/tmp/uv-runner-1" "x86_64-unknown-linux-gnu").trace
      = ["/tmp/uv-runner-1/uv"] ∧
    replay emptyFS (Old.downloadUV swappedWorld "/tmp/uv-runner-1"
        "x86_64-unknown-linux-gnu").trace "/tmp/uv-runner-1/uv"
      = some (.file swappedTool 0o755) ∧
    runs (Old.main swappedWorld).trace = [("/tmp/uv-runner-1/uv", "run" :: Cli.defaultScripts)] := by
  decide

/-- C2.  When both requests are answered with status 200 and read without error, the
temporary file is created and written without error, and the checksum text has the first
token E: the bytes written to the temporary file and the bytes hashed are the whole body B,
which is what the temporary file then holds, so the computed digest A is the SHA-256 of B,
written as 64 lowercase hexadecimal digits; when A differs from E,
downloadUV ends, before any extraction, with the error "checksum verification failed:
expected E, got A"; when A equals E (and the seek succeeds) it goes on to extract from the
bytes of B; it ends with that error if and only if A and E differ as strings; and so does
the GUI downloadUV. -/
theorem C2_checksum_comparison (w : World) (tempDir target tmpName : String)
    (resp cresp : Response) (E : String) (rest : List String)
    (hget : w.httpGet (Cli.downloadURL w.goos Cli.uvVersion target) = .ok resp)
    (hstatus : resp.statusCode = 200)
    (htmp : w.createTemp tempDir (if w.goos = "windows" then "uv-*.zip" else "uv-*.tar.gz")
      = .ok tmpName)
    (hwrite : w.writeErr tmpName = none) (hread : resp.readErr = none)
    (hcget : w.httpGet (Cli.downloadURL w.goos Cli.uvVersion target ++ ".sha256") = .ok cresp)
    (hcstatus : cresp.statusCode = 200) (hcread : cresp.readErr = none)
    (hE : stringsFields (goString cresp.chunks.flatten) = E :: rest) :
    (Cli.copyBody w tmpName resp.chunks ⟨[], []⟩
        = (resp.chunks.map (Event.write tmpName),
            .ok ⟨resp.chunks.flatten, resp.chunks.flatten⟩) ∧
      (∀ fs, replay fs (Event.createTemp tmpName :: resp.chunks.map (Event.write tmpName)) tmpName
        = some (.file resp.chunks.flatten 0o600)) ∧
      (fmtHex (sha256 resp.chunks.flatten)).data.length = 64 ∧
      ∀ c ∈ (fmtHex (sha256 resp.chunks.flatten)).data, c ∈ lowerHexDigits) ∧
    (fmtHex (sha256 resp.chunks.flatten) ≠ E →
      Cli.downloadUV w tempDir target
        = ⟨[.httpGet (Cli.downloadURL w.goos Cli.uvVersion target), .createTemp tmpName]
            ++ (resp.chunks.map (Event.write tmpName)
              ++ [.httpGet (Cli.downloadURL w.goos Cli.uvVersion target ++ ".sha256")])
            ++ [.remove tmpName],
          .ret ("", some (.errorf ("checksum verification failed: expected " ++ E ++ ", got "
            ++ fmtHex (sha256 resp.chunks.flatten))))⟩) ∧
    (fmtHex (sha256 resp.chunks.flatten) = E → w.seekErr = none →
      Cli.downloadUV w tempDir target
        = ⟨[.httpGet (Cli.downloadURL w.goos Cli.uvVersion target), .createTemp tmpName]
            ++ (resp.chunks.map (Event.write tmpName)
              ++ [.httpGet (Cli.downloadURL w.goos Cli.uvVersion target ++ ".sha256")]
              ++ (if w.goos = "windows" then Cli.extractZip w resp.chunks.flatten tempDir
                  else Cli.extractTarGz w resp.chunks.flatten tempDir).trace)
            ++ [.remove tmpName],
          (if w.goos = "windows" then Cli.extractZip w resp.chunks.flatten tempDir
            else Cli.extractTarGz w resp.chunks.flatten tempDir).out⟩) ∧
    ((Cli.downloadUV w tempDir target).out
        = .ret ("", some (.errorf ("checksum verification failed: expected " ++ E ++ ", got "
            ++ fmtHex (sha256 resp.chunks.flatten))))
      ↔ fmtHex (sha256 resp.chunks.flatten) ≠ E) ∧
    (Cli.resolveTarget w.goos w.goarch = .ret target →
      ((Gui.App.downloadUV w tempDir).out
        = .ret ("", some (.errorf ("checksum verification failed: expected " ++ E ++ ", got "
            ++ fmtHex (sha256 resp.chunks.flatten))))
      ↔ fmtHex (sha256 resp.chunks.flatten) ≠ E)) := by
  have hcopy := copyBody_noErr w tmpName resp.chunks ⟨[], []⟩ hwrite
  simp only [List.nil_append] at hcopy
  have hrun := downloadUV_copied w tempDir target tmpName resp hget hstatus htmp
  have hne : fmtHex (sha256 resp.chunks.flatten) ≠ E →
      Cli.downloadUVBody w tempDir (Cli.downloadURL w.goos Cli.uvVersion target ++ ".sha256")
        tmpName resp
      = ⟨resp.chunks.map (Event.write tmpName)
            ++ [.httpGet (Cli.downloadURL w.goos Cli.uvVersion target ++ ".sha256")],
          .ret ("", some (.errorf ("checksum verification failed: expected " ++ E ++ ", got "
            ++ fmtHex (sha256 resp.chunks.flatten))))⟩ := by
    intro h
    simp only [Cli.downloadUVBody, hcopy, hread, hcget, hcstatus, hcread, hE, ne_eq,
      not_true_eq_false, if_false, h, not_false_eq_true, if_true]
  have hiff : (Cli.downloadUV w tempDir target).out
        = .ret ("", some (.errorf ("checksum verification failed: expected " ++ E ++ ", got "
            ++ fmtHex (sha256 resp.chunks.flatten))))
      ↔ fmtHex (sha256 resp.chunks.flatten) ≠ E := by
    constructor
    · intro h
      rcases downloadUV_out_errorf w tempDir target _ h with
        ⟨r, _, _, h1⟩ | ⟨r, _, _, h1⟩ | ⟨r, c, E', rest', hr, hc, hf, hAE, _⟩ | h1
      · simp [String.ext_iff] at h1
      · simp [String.ext_iff] at h1
      · rw [hget] at hr
        cases hr
        rw [hcget] at hc
        cases hc
        rw [hE] at hf
        cases hf
        exact hAE
      · simp [String.ext_iff] at h1
    · intro h
      rw [hrun, hne h]
  have hlen : (fmtHex (sha256 resp.chunks.flatten)).data.length = 64 := by
    rw [(fmtHex_lower _).2, length_sha256]
  refine ⟨⟨hcopy, fun fs => replay_tempFile fs tmpName resp.chunks, hlen,
    (fmtHex_lower _).1⟩, ?_, ?_, hiff, ?_⟩
  · intro h
    rw [hrun, hne h]
  · intro h hseek
    rw [hrun]
    simp only [Cli.downloadUVBody, hcopy, hread, hcget, hcstatus, hcread, hE, ne_eq,
      not_true_eq_false, if_false, h, hseek]
  · intro ht
    simp only [Gui.App.downloadUV, ht]
    exact hiff

set_option maxRecDepth 100000 in
/-- C2, witness: the corrupted archive against the checksum of the original, and the original
archive against its checksum written in upper case: both fail, reporting both values. -/
theorem C2_checksum_comparison_witness :
    ((Cli.downloadUV tamperedWorld "/tmp/uv-runner-1" "x86_64-unknown-linux-gnu").out
      = .ret ("", some (.errorf ("checksum verification failed: expected "
          ++ "74f81fe167d99b4cb41d6d0ccda82278caee9f3e2f25d5e5a3936ff3dcec60d0" ++ ", got "
          ++ fmtHex (sha256 corruptArchive.chunks.flatten))))) ∧
    ((Cli.downloadUV upperWorld "/tmp/uv-runner-1" "x86_64-unknown-linux-gnu").out
      = .ret ("", some (.errorf ("checksum verification failed: expected "
          ++ "74F81FE167D99B4CB41D6D0CCDA82278CAEE9F3E2F25D5E5A3936FF3DCEC60D0" ++ ", got "
          ++ fmtHex (sha256 sampleArchive.chunks.flatten))))) :=
  ⟨(C2_checksum_comparison tamperedWorld "/tmp/uv-runner-1" "x86_64-unknown-linux-gnu"
      "/tmp/uv-runner-1/uv-2.tar.gz" corruptArchive sampleChecksum
      "74f81fe167d99b4cb41d6d0ccda82278caee9f3e2f25d5e5a3936ff3dcec60d0"
      ["uv-x86_64-unknown-linux-gnu.tar.gz"] rfl rfl rfl rfl rfl rfl rfl rfl
      (by decide)).2.2.2.1.2 (by decide),
   (C2_checksum_comparison upperWorld "/tmp/uv-runner-1" "x86_64-unknown-linux-gnu"
      "/tmp/uv-runner-1/uv-2.tar.gz" sampleArchive upperChecksum
      "74F81FE167D99B4CB41D6D0CCDA82278CAEE9F3E2F25D5E5A3936FF3DCEC60D0"
      ["uv-x86_64-unknown-linux-gnu.tar.gz"] rfl rfl rfl rfl rfl rfl rfl rfl
      (by decide)).2.2.2.1.2 (by decide)⟩

/-- C3.  For the six supported hosts the target string built from getArch and getPlatform
is the documented one, it is the arch name, a hyphen and the OS triple, and the six strings
are pairwise distinct. -/
theorem C3_target_strings :
    Cli.resolveTarget "darwin" "amd64" = .ret "x86_64-apple-darwin" ∧
    Cli.resolveTarget "darwin" "arm64" = .ret "aarch64-apple-darwin" ∧
    Cli.resolveTarget "linux" "amd64" = .ret "x86_64-unknown-linux-gnu" ∧
    Cli.resolveTarget "linux" "arm64" = .ret "aarch64-unknown-linux-gnu" ∧
    Cli.resolveTarget "windows" "amd64" = .ret "x86_64-pc-windows-msvc" ∧
    Cli.resolveTarget "windows" "arm64" = .ret "aarch64-pc-windows-msvc" ∧
    Cli.getArch "amd64" = .ret "x86_64" ∧ Cli.getArch "arm64" = .ret "aarch64" ∧
    Cli.getPlatform "darwin" = .ret "apple-darwin" ∧
    Cli.getPlatform "linux" = .ret "unknown-linux-gnu" ∧
    Cli.getPlatform "windows" = .ret "pc-windows-msvc" ∧
    (∀ os ∈ supportedOS, ∀ arch ∈ supportedArch,
      ∃ a p, Cli.getArch arch = .ret a ∧ Cli.getPlatform os = .ret p ∧
        Cli.resolveTarget os arch = .ret (a ++ "-" ++ p)) ∧
    (supportedOS.flatMap
      (fun os => supportedArch.map (fun arch => Cli.resolveTarget os arch))).Nodup := by
  refine ⟨by decide, by decide, by decide, by decide, by decide, by decide, by decide,
    by decide, by decide, by decide, by decide, ?_, by decide⟩
  intro os hos arch harch
  simp only [supportedOS, supportedArch, List.mem_cons, List.mem_singleton, List.not_mem_nil,
    or_false] at hos harch
  rcases hos with h | h | h <;> rcases harch with h' | h' <;> subst h <;> subst h' <;>
    exact ⟨_, _, rfl, rfl, rfl⟩

/-- C4.  On a host whose OS is not darwin, linux or windows the resolver panics with
"Unsupported platform: <os>"; on a supported OS with an architecture that is not amd64 or
arm64 it panics with "Unsupported architecture: <arch>"; it panics exactly when the pair is
unsupported; and when it panics, the CLI main, the older main and the GUI downloadUV end with
that panic and an empty trace (no request was issued, no target was produced), the GUI
initializeUV with no request in its trace. -/
theorem C4_unsupported_host_panics (w : World) (tempDir : String) (a : Gui.App) :
    (w.goos ∉ supportedOS →
      Cli.resolveTarget w.goos w.goarch = .panic ("Unsupported platform: " ++ w.goos)) ∧
    (w.goos ∈ supportedOS → w.goarch ∉ supportedArch →
      Cli.resolveTarget w.goos w.goarch = .panic ("Unsupported architecture: " ++ w.goarch)) ∧
    ((∃ m, Cli.resolveTarget w.goos w.goarch = .panic m) ↔
      ¬ (w.goos ∈ supportedOS ∧ w.goarch ∈ supportedArch)) ∧
    (∀ m, Cli.resolveTarget w.goos w.goarch = .panic m →
      Cli.main w = ⟨[], .panic m⟩ ∧ Old.main w = ⟨[], .panic m⟩ ∧
      Gui.App.downloadUV w tempDir = ⟨[], .panic m⟩ ∧
      httpGets (Gui.App.initializeUV w a).trace = []) := by
  obtain ⟨h1, h2, h3⟩ := resolveTarget_cases w.goos w.goarch
  refine ⟨h1, h2, ?_, ?_⟩
  · constructor
    · rintro ⟨m, hm⟩ ⟨hos, harch⟩
      obtain ⟨t, ht⟩ := h3 hos harch
      rw [ht] at hm
      cases hm
    · intro h
      by_cases hos : w.goos ∈ supportedOS
      · exact ⟨_, h2 hos (fun harch => h ⟨hos, harch⟩)⟩
      · exact ⟨_, h1 hos⟩
  · intro m hm
    refine ⟨?_, ?_, ?_, ?_⟩
    · simp only [Cli.main, hm]
    · simp only [Old.main, hm]
    · simp only [Gui.App.downloadUV, hm]
    · unfold Gui.App.initializeUV
      split
      · rfl
      · simp only [Gui.App.downloadUV, hm]
        rfl

/-- C4, witness: a plan9/amd64 host and a linux/riscv64 host. -/
theorem C4_unsupported_host_panics_witness :
    Cli.main { verifiedWorld with goos := "plan9" }
      = ⟨[], .panic "Unsupported platform: plan9"⟩ ∧
    Cli.main { verifiedWorld with goarch := "riscv64" }
      = ⟨[], .panic "Unsupported architecture: riscv64"⟩ :=
  ⟨((C4_unsupported_host_panics { verifiedWorld with goos := "plan9" } "/tmp"
      ⟨[], "", "", []⟩).2.2.2 _
      ((C4_unsupported_host_panics { verifiedWorld with goos := "plan9" } "/tmp"
        ⟨[], "", "", []⟩).1 (by decide))).1,
   ((C4_unsupported_host_panics { verifiedWorld with goarch := "riscv64" } "/tmp"
      ⟨[], "", "", []⟩).2.2.2 _
      ((C4_unsupported_host_panics { verifiedWorld with goarch := "riscv64" } "/tmp"
        ⟨[], "", "", []⟩).2.1 (by decide) (by decide))).1⟩

/-- C5.  The download URL is the release prefix, the version, "/uv-", the target and the
extension (".zip" on windows, ".tar.gz" elsewhere); the checksum URL is the download URL
followed by ".sha256", of which the download URL is a proper prefix; and the requests of the
CLI downloadUV are the download URL alone or the download URL then the checksum URL, the GUI
downloadUV being the CLI one on the resolved target. -/
theorem C5_download_urls (w : World) (tempDir version target : String) :
    Cli.downloadURL w.goos version target
      = "https://github.com/astral-sh/uv/releases/download/" ++ version ++ "/uv-" ++ target
        ++ (if w.goos = "windows" then ".zip" else ".tar.gz") ∧
    ((Cli.downloadURL w.goos version target).data
        <+: (Cli.downloadURL w.goos version target ++ ".sha256").data ∧
      Cli.downloadURL w.goos version target ≠ Cli.downloadURL w.goos version target ++ ".sha256") ∧
    (httpGets (Cli.downloadUV w tempDir target).trace
        = [Cli.downloadURL w.goos Cli.uvVersion target] ∨
      httpGets (Cli.downloadUV w tempDir target).trace
        = [Cli.downloadURL w.goos Cli.uvVersion target,
           Cli.downloadURL w.goos Cli.uvVersion target ++ ".sha256"]) ∧
    (Cli.resolveTarget w.goos w.goarch = .ret target →
      Gui.App.downloadUV w tempDir = Cli.downloadUV w tempDir target) := by
  refine ⟨rfl, ⟨?_, ne_append_sha256 _⟩, downloadUV_httpGets w tempDir target, ?_⟩
  · rw [String.data_append]
    exact List.prefix_append _ _
  · intro ht
    simp only [Gui.App.downloadUV, ht]

/-- C5, witness: the URLs of a linux/amd64 host and of a windows/arm64 host. -/
theorem C5_download_urls_witness :
    Gui.App.downloadUV verifiedWorld "/tmp/uv-runner-1"
      = Cli.downloadUV verifiedWorld "/tmp/uv-runner-1" "x86_64-unknown-linux-gnu" ∧
    Cli.downloadURL "linux" "0.8.19" "x86_64-unknown-linux-gnu"
      = "https://github.com/astral-sh/uv/releases/download/0.8.19/uv-x86_64-unknown-linux-gnu.tar.gz" ∧
    Cli.downloadURL "windows" "0.8.19" "aarch64-pc-windows-msvc"
      = "https://github.com/astral-sh/uv/releases/download/0.8.19/uv-aarch64-pc-windows-msvc.zip" :=
  ⟨(C5_download_urls verifiedWorld "/tmp/uv-runner-1" "0.8.19"
      "x86_64-unknown-linux-gnu").2.2.2 (by decide), by decide, by decide⟩

/-- C6 (as amended).  When the archive request is answered with status s, downloadUV ends
with the error "failed to download uv: status s" if and only if s is not 200, and then its
only event is that request; when the run reaches the checksum request and it is answered
with status s, downloadUV ends with "failed to download checksum: status s" if and only if
s is not 200, and then its events are the two requests and the temporary file; a run that
ends with either error creates no extracted file. -/
theorem C6_status_errors (w : World) (tempDir target : String) (resp : Response)
    (hget : w.httpGet (Cli.downloadURL w.goos Cli.uvVersion target) = .ok resp) :
    ((Cli.downloadUV w tempDir target).out
        = .ret ("", some (.errorf ("failed to download uv: status " ++ fmtInt resp.statusCode)))
      ↔ resp.statusCode ≠ 200) ∧
    (resp.statusCode ≠ 200 →
      Cli.downloadUV w tempDir target
        = ⟨[.httpGet (Cli.downloadURL w.goos Cli.uvVersion target)],
          .ret ("", some (.errorf ("failed to download uv: status "
            ++ fmtInt resp.statusCode)))⟩) ∧
    (∀ tmpName cresp, resp.statusCode = 200 →
      w.createTemp tempDir (if w.goos = "windows" then "uv-*.zip" else "uv-*.tar.gz")
        = .ok tmpName →
      w.writeErr tmpName = none → resp.readErr = none →
      w.httpGet (Cli.downloadURL w.goos Cli.uvVersion target ++ ".sha256") = .ok cresp →
      ((Cli.downloadUV w tempDir target).out
          = .ret ("", some (.errorf ("failed to download checksum: status "
              ++ fmtInt cresp.statusCode)))
        ↔ cresp.statusCode ≠ 200) ∧
      (cresp.statusCode ≠ 200 →
        Cli.downloadUV w tempDir target
          = ⟨[.httpGet (Cli.downloadURL w.goos Cli.uvVersion target), .createTemp tmpName]
              ++ (resp.chunks.map (Event.write tmpName)
                ++ [.httpGet (Cli.downloadURL w.goos Cli.uvVersion target ++ ".sha256")])
              ++ [.remove tmpName],
            .ret ("", some (.errorf ("failed to download checksum: status "
              ++ fmtInt cresp.statusCode)))⟩)) ∧
    (∀ s : Int,
      (Cli.downloadUV w tempDir target).out
          = .ret ("", some (.errorf ("failed to download uv: status " ++ fmtInt s))) ∨
        (Cli.downloadUV w tempDir target).out
          = .ret ("", some (.errorf ("failed to download checksum: status " ++ fmtInt s))) →
      creates (Cli.downloadUV w tempDir target).trace = []) := by
  have hfail : resp.statusCode ≠ 200 →
      Cli.downloadUV w tempDir target
        = ⟨[.httpGet (Cli.downloadURL w.goos Cli.uvVersion target)],
          .ret ("", some (.errorf ("failed to download uv: status "
            ++ fmtInt resp.statusCode)))⟩ := by
    intro hs
    simp only [Cli.downloadUV, hget, ne_eq, hs, not_false_eq_true, if_true]
  refine ⟨⟨?_, fun hs => by rw [hfail hs]⟩, hfail, ?_, ?_⟩
  · intro h
    rcases downloadUV_out_errorf w tempDir target _ h with
      ⟨r, hr, hs, _⟩ | ⟨r, _, _, h1⟩ | ⟨r, c, E', rest', _, _, _, _, h1⟩ | h1
    · rw [hget] at hr
      cases hr
      exact hs
    · simp [String.ext_iff] at h1
    · simp [String.ext_iff] at h1
    · simp [String.ext_iff] at h1
  · intro tmpName cresp hstatus htmp hwrite hread hcget
    have hcopy := copyBody_noErr w tmpName resp.chunks ⟨[], []⟩ hwrite
    simp only [List.nil_append] at hcopy
    have hrun := downloadUV_copied w tempDir target tmpName resp hget hstatus htmp
    have hcfail : cresp.statusCode ≠ 200 →
        Cli.downloadUV w tempDir target
          = ⟨[.httpGet (Cli.downloadURL w.goos Cli.uvVersion target), .createTemp tmpName]
              ++ (resp.chunks.map (Event.write tmpName)
                ++ [.httpGet (Cli.downloadURL w.goos Cli.uvVersion target ++ ".sha256")])
              ++ [.remove tmpName],
            .ret ("", some (.errorf ("failed to download checksum: status "
              ++ fmtInt cresp.statusCode)))⟩ := by
      intro hs
      rw [hrun]
      simp only [Cli.downloadUVBody, hcopy, hread, hcget, ne_eq, hs, not_false_eq_true, if_true]
    refine ⟨⟨?_, fun hs => by rw [hcfail hs]⟩, hcfail⟩
    intro h
    rcases downloadUV_out_errorf w tempDir target _ h with
      ⟨r, _, _, h1⟩ | ⟨r, hr, hs, _⟩ | ⟨r, c, E', rest', _, _, _, _, h1⟩ | h1
    · simp [String.ext_iff] at h1
    · rw [hcget] at hr
      cases hr
      exact hs
    · simp [String.ext_iff] at h1
    · simp [String.ext_iff] at h1
  · intro s hs
    by_contra hc
    rcases downloadUV_creates_out w tempDir target hc with ⟨e, he⟩ | he | ⟨p, he⟩
    · rcases hs with hs | hs <;> rw [he] at hs <;> cases hs
    · rcases hs with hs | hs <;> rw [he] at hs <;>
        simp [Cli.notFound, String.ext_iff] at hs
    · rcases hs with hs | hs <;> rw [he] at hs <;> cases hs

/-- C6, witness: 404 on the archive request. -/
theorem C6_status_errors_witness :
    Cli.downloadUV (linuxWorld ⟨404, [], none⟩ sampleChecksum sampleTar []) "/tmp/uv-runner-1"
        "x86_64-unknown-linux-gnu"
      = ⟨[.httpGet
            "https://github.com/astral-sh/uv/releases/download/0.8.19/uv-x86_64-unknown-linux-gnu.tar.gz"],
          .ret ("", some (.errorf "failed to download uv: status 404"))⟩ :=
  (C6_status_errors (linuxWorld ⟨404, [], none⟩ sampleChecksum sampleTar []) "/tmp/uv-runner-1"
    "x86_64-unknown-linux-gnu" ⟨404, [], none⟩ rfl).2.1 (by decide)

/-- C6, as stated, fails: 204 and 206 are success (2xx) statuses, and downloadUV ends with
the status error for each of them. -/
theorem C6_success_status_rejected :
    isSuccessStatus 204 = true ∧ isSuccessStatus 206 = true ∧
    (Cli.downloadUV noContentWorld "/tmp/uv-runner-1" "x86_64-unknown-linux-gnu").out
      = .ret ("", some (.errorf "failed to download uv: status 204")) ∧
    (Cli.downloadUV partialChecksumWorld "/tmp/uv-runner-1" "x86_64-unknown-linux-gnu").out
      = .ret ("", some (.errorf "failed to download checksum: status 206")) := by
  decide

/-- C7.  Let the entries of the archive be `pre`, then `m`, then `post`, where no entry of
`pre` has base name uv or uv.exe and `m` has, and let no file operation fail.  Then
extractTarGz and extractZip return the path filepath.Join(outputDir, base name of m) with a
nil error; the events are the headers read up to `m` (tar), the creation of the file at
that path, the reading of the body of `m`, the writing of its bytes and chmod 0755, with no
event for an entry of `post`; and after them the file at that path holds exactly the bytes
of `m` with permission bits 0755. -/
theorem C7_first_match_extracted (w : World) (file : List UInt8) (tempDir : String)
    (pre post : List Entry) (m : Entry) (endErr : Option String) (fs : FS)
    (hpre : ∀ e ∈ pre, w.filepathBase e.name ≠ "uv" ∧ w.filepathBase e.name ≠ "uv.exe")
    (hm : w.filepathBase m.name = "uv" ∨ w.filepathBase m.name = "uv.exe")
    (hcreate : w.createErr (w.filepathJoin tempDir (w.filepathBase m.name)) = none)
    (hwrite : w.writeErr (w.filepathJoin tempDir (w.filepathBase m.name)) = none)
    (hread : m.readErr = none) (hopen : m.openErr = none)
    (hchmod : w.chmodErr (w.filepathJoin tempDir (w.filepathBase m.name)) = none)
    (hstat : w.statErr = none)
    (hjoin : w.filepathJoin tempDir (w.filepathBase m.name) ≠ "") :
    (w.gzipTar file = .ok ⟨pre ++ m :: post, endErr⟩ →
      Cli.extractTarGz w file tempDir
        = ⟨pre.map (fun e => Event.readHeader e.name) ++
            [.readHeader m.name, .create (w.filepathJoin tempDir (w.filepathBase m.name)),
             .readEntry m.name, .write (w.filepathJoin tempDir (w.filepathBase m.name)) m.data,
             .chmod (w.filepathJoin tempDir (w.filepathBase m.name)) 0o755],
          .ret (w.filepathJoin tempDir (w.filepathBase m.name), none)⟩ ∧
      replay fs (Cli.extractTarGz w file tempDir).trace
          (w.filepathJoin tempDir (w.filepathBase m.name)) = some (.file m.data 0o755)) ∧
    (w.zipReader file = .ok (pre ++ m :: post) →
      Cli.extractZip w file tempDir
        = ⟨[.create (w.filepathJoin tempDir (w.filepathBase m.name)),
             .readEntry m.name, .write (w.filepathJoin tempDir (w.filepathBase m.name)) m.data,
             .chmod (w.filepathJoin tempDir (w.filepathBase m.name)) 0o755],
          .ret (w.filepathJoin tempDir (w.filepathBase m.name), none)⟩ ∧
      replay fs (Cli.extractZip w file tempDir).trace
          (w.filepathJoin tempDir (w.filepathBase m.name)) = some (.file m.data 0o755)) := by
  have hx := extractEntry_ok w _ m hcreate hwrite hread hchmod hjoin
  have hcond : (decide (w.filepathBase m.name = "uv") || decide (w.filepathBase m.name = "uv.exe"))
      = true := by
    rcases hm with h | h <;> simp [h]
  have hcond' : (decide (w.filepathBase m.name = "uv.exe") || decide (w.filepathBase m.name = "uv"))
      = true := by
    rcases hm with h | h <;> simp [h]
  have htar : w.gzipTar file = .ok ⟨pre ++ m :: post, endErr⟩ →
      Cli.extractTarGz w file tempDir
        = ⟨pre.map (fun e => Event.readHeader e.name) ++
            [.readHeader m.name, .create (w.filepathJoin tempDir (w.filepathBase m.name)),
             .readEntry m.name, .write (w.filepathJoin tempDir (w.filepathBase m.name)) m.data,
             .chmod (w.filepathJoin tempDir (w.filepathBase m.name)) 0o755],
          .ret (w.filepathJoin tempDir (w.filepathBase m.name), none)⟩ := by
    intro h
    simp only [Cli.extractTarGz, h, tarLoop_skip w tempDir pre (m :: post) endErr hpre,
      Cli.tarLoop, hcond, if_true, hx]
  have hzip : w.zipReader file = .ok (pre ++ m :: post) →
      Cli.extractZip w file tempDir
        = ⟨[.create (w.filepathJoin tempDir (w.filepathBase m.name)),
             .readEntry m.name, .write (w.filepathJoin tempDir (w.filepathBase m.name)) m.data,
             .chmod (w.filepathJoin tempDir (w.filepathBase m.name)) 0o755],
          .ret (w.filepathJoin tempDir (w.filepathBase m.name), none)⟩ := by
    intro h
    simp only [Cli.extractZip, hstat, h, zipLoop_skip w tempDir pre (m :: post) hpre,
      Cli.zipLoop, hcond', if_true, hopen, hx]
  refine ⟨fun h => ⟨htar h, ?_⟩, fun h => ⟨hzip h, ?_⟩⟩
  · rw [htar h]
    simp only []
    rw [replay_append, replay_readHeaders]
    exact replay_extracted fs _ m.name m.data
  · rw [hzip h]
    exact replay_extracted fs _ m.name m.data

/-- C7, witness: the release archive, read as tar.gz and as zip. -/
theorem C7_first_match_extracted_witness :
    Cli.extractTarGz verifiedWorld [] "/tmp/uv-runner-1"
      = ⟨[.readHeader "uv-x86_64-unknown-linux-gnu/",
          .readHeader "uv-x86_64-unknown-linux-gnu/uv", .create "/tmp/uv-runner-1/uv",
          .readEntry "uv-x86_64-unknown-linux-gnu/uv", .write "/tmp/uv-runner-1/uv" [9, 9],
          .chmod "/tmp/uv-runner-1/uv" 0o755],
        .ret ("/tmp/uv-runner-1/uv", none)⟩ ∧
    replay emptyFS (Cli.extractZip zipWorld [] "/tmp/uv-runner-1").trace "/tmp/uv-runner-1/uv"
      = some (.file [9, 9] 0o755) :=
  ⟨((C7_first_match_extracted verifiedWorld [] "/tmp/uv-runner-1"
      [⟨"uv-x86_64-unknown-linux-gnu/", .directory, [], none, none⟩]
      [⟨"uv-x86_64-unknown-linux-gnu/uvx", .regular, [7], none, none⟩]
      ⟨"uv-x86_64-unknown-linux-gnu/uv", .regular, [9, 9], none, none⟩ none emptyFS
      (by decide) (by decide) rfl rfl rfl rfl rfl rfl (by decide)).1 rfl).1,
   ((C7_first_match_extracted zipWorld [] "/tmp/uv-runner-1"
      [⟨"uv-x86_64-unknown-linux-gnu/", .directory, [], none, none⟩]
      [⟨"uv-x86_64-unknown-linux-gnu/uvx", .regular, [7], none, none⟩]
      ⟨"uv-x86_64-unknown-linux-gnu/uv", .regular, [9, 9], none, none⟩ none emptyFS
      (by decide) (by decide) rfl rfl rfl rfl rfl rfl (by decide)).2 rfl).2⟩

/-- C8.  When no entry of the archive has base name uv or uv.exe (the empty archive
included) and the archive ends with io.EOF, extractTarGz reads every header, extractZip
opens no entry, both leave the file system as it was and return the empty path with the
error "uv binary not found in archive". -/
theorem C8_not_found (w : World) (file : List UInt8) (tempDir : String) (entries : List Entry)
    (fs : FS)
    (hnone : ∀ e ∈ entries, w.filepathBase e.name ≠ "uv" ∧ w.filepathBase e.name ≠ "uv.exe") :
    (w.gzipTar file = .ok ⟨entries, none⟩ →
      Cli.extractTarGz w file tempDir
        = ⟨entries.map (fun e => Event.readHeader e.name),
          .ret ("", some (.errorf "uv binary not found in archive"))⟩ ∧
      creates (Cli.extractTarGz w file tempDir).trace = [] ∧
      replay fs (Cli.extractTarGz w file tempDir).trace = fs) ∧
    (w.statErr = none → w.zipReader file = .ok entries →
      Cli.extractZip w file tempDir
        = ⟨[], .ret ("", some (.errorf "uv binary not found in archive"))⟩) := by
  have htar : w.gzipTar file = .ok ⟨entries, none⟩ →
      Cli.extractTarGz w file tempDir
        = ⟨entries.map (fun e => Event.readHeader e.name),
          .ret ("", some (.errorf "uv binary not found in archive"))⟩ := by
    intro h
    have := tarLoop_skip w tempDir entries [] none hnone
    simp only [List.append_nil] at this
    simp only [Cli.extractTarGz, h, this, Cli.tarLoop, List.append_nil, Cli.notFound]
  refine ⟨fun h => ⟨htar h, ?_, ?_⟩, ?_⟩
  · rw [htar h]
    simp only []
    exact creates_readHeaders entries
  · rw [htar h]
    exact replay_readHeaders fs entries
  · intro hstat h
    have := zipLoop_skip w tempDir entries [] hnone
    simp only [List.append_nil] at this
    simp only [Cli.extractZip, hstat, h, this, Cli.zipLoop, Cli.notFound]

/-- C8, witness: an archive with a directory and the second tool only, and the empty
archive. -/
theorem C8_not_found_witness :
    Cli.extractTarGz noToolWorld [] "/tmp/uv-runner-1"
      = ⟨[.readHeader "uv-x86_64-unknown-linux-gnu/",
          .readHeader "uv-x86_64-unknown-linux-gnu/uvx"],
        .ret ("", some (.errorf "uv binary not found in archive"))⟩ ∧
    Cli.extractZip { noToolWorld with zipReader := fun _ => .ok [] } [] "/tmp/uv-runner-1"
      = ⟨[], .ret ("", some (.errorf "uv binary not found in archive"))⟩ :=
  ⟨((C8_not_found noToolWorld [] "/tmp/uv-runner-1"
      [⟨"uv-x86_64-unknown-linux-gnu/", .directory, [], none, none⟩,
       ⟨"uv-x86_64-unknown-linux-gnu/uvx", .regular, [7], none, none⟩] emptyFS
      (by decide)).1 rfl).1,
   (C8_not_found { noToolWorld with zipReader := fun _ => .ok [] } [] "/tmp/uv-runner-1" []
      emptyFS (by decide)).2 rfl rfl⟩

/-- C9, the code at the failing input: in an archive that holds the directory entry uv/ and
then the file uv/uv, the directory entry comes first and has base name uv; extractTarGz,
extractZip and the older downloadUV write its (empty) body to the output file, make it
executable and return its path without error, and never read the file entry. -/
theorem C9_directory_entry_extracted :
    nestedWorld.filepathBase "uv/" = "uv" ∧
    Cli.extractTarGz nestedWorld [] "/tmp/uv-runner-1"
      = ⟨[.readHeader "uv/", .create "/tmp/uv-runner-1/uv", .readEntry "uv/",
          .write "/tmp/uv-runner-1/uv" [], .chmod "/tmp/uv-runner-1/uv" 0o755],
        .ret ("/tmp/uv-runner-1/uv", none)⟩ ∧
    Cli.extractZip nestedWorld [] "/tmp/uv-runner-1"
      = ⟨[.create "/tmp/uv-runner-1/uv", .readEntry "uv/",
          .write "/tmp/uv-runner-1/uv" [], .chmod "/tmp/uv-runner-1/uv" 0o755],
        .ret ("/tmp/uv-runner-1/uv", none)⟩ ∧
    replay emptyFS (Cli.extractTarGz nestedWorld [] "/tmp/uv-runner-1").trace
      "/tmp/uv-runner-1/uv" = some (.file [] 0o755) ∧
    (Old.downloadUV nestedWorld "/tmp/uv-runner-1" "x86_64-unknown-linux-gnu").out
      = .ret ("/tmp/uv-runner-1/uv", none) ∧
    Event.readEntry "uv/uv" ∉ (Cli.extractTarGz nestedWorld [] "/tmp/uv-runner-1").trace := by
  decide

/-- C10.  Once downloadUV has returned the path of the tool, the CLI main runs exactly one
command, the tool, with the arguments "run" followed by the program arguments in their
order when there is at least one, and by the two default URLs in their order when there is
none.  The GUI runScripts, with uvPath set, a non-empty script list and no failure of the
pipes or of Start, starts exactly one command, the tool, with "run" followed by the scripts
in list order, and registers it with these arguments. -/
theorem C10_run_arguments (w : World) (a : Gui.App) (target tempDir uvPath : String)
    (ht : Cli.resolveTarget w.goos w.goarch = .ret target)
    (hd : w.mkdirTemp = .ok tempDir)
    (hdl : (Cli.downloadUV w tempDir target).out = .ret (uvPath, none)) :
    (∀ prog r rs, w.args = prog :: r :: rs →
      runs (Cli.main w).trace = [(uvPath, "run" :: r :: rs)] ∧
      ("run" :: r :: rs).length = (r :: rs).length + 1) ∧
    (w.args.length ≤ 1 →
      runs (Cli.main w).trace
        = [(uvPath, ["run",
            "https://raw.githubusercontent.com/tnldart/openapi-servers/refs/heads/main/servers/memory/oneshot.py",
            "https://raw.githubusercontent.com/tnldart/openapi-servers/refs/heads/main/servers/memory/main.py"])]) ∧
    (a.uvPath ≠ "" → a.scripts ≠ [] → w.pipeErr = none →
      ∀ pid, w.startCmd a.uvPath ("run" :: a.scripts) = .ok pid →
        starts (Gui.App.runScripts w a).1 = [(a.uvPath, "run" :: a.scripts)] ∧
        (Gui.App.runScripts w a).1.getLast? = some (.start a.uvPath ("run" :: a.scripts)) ∧
        (Gui.App.runScripts w a).2.runningCmds = [⟨a.uvPath, "run" :: a.scripts, some pid⟩]) := by
  have hr := main_runs w target tempDir uvPath ht hd hdl
  refine ⟨?_, ?_, ?_⟩
  · intro prog r rs hargs
    refine ⟨?_, rfl⟩
    rw [hr, hargs]
    simp
  · intro hlen
    rw [hr, if_neg (by omega)]
    rfl
  · intro hp hs hpipe pid hstart
    have hlen : ¬ a.scripts.length = 0 := by
      intro h0
      exact hs (List.length_eq_zero.mp h0)
    have hstart' : w.startCmd a.uvPath (["run"] ++ a.scripts) = .ok pid := hstart
    simp only [Gui.App.runScripts, hp, if_false, hlen, hpipe, hstart']
    refine ⟨?_, ?_, ?_⟩
    · rw [starts_append]
      split
      · rw [starts_stopCmd]; rfl
      · rfl
    · simp
    · split
      · rfl
      · rename_i h
        have : a.runningCmds = [] := by
          cases hc : a.runningCmds with
          | nil => rfl
          | cons c cs => rw [hc] at h; simp at h
        simp [this]

set_option maxRecDepth 100000 in
/-- C10, witness: the arguments a.py and b.py. -/
theorem C10_run_arguments_witness :
    runs (Cli.main verifiedWorld).trace = [("/tmp/uv-runner-1/uv", ["run", "a.py", "b.py"])] :=
  ((C10_run_arguments verifiedWorld ⟨["x.py"], "/tmp/uv-runner-1/uv", "/tmp/uv-runner-1", []⟩
    "x86_64-unknown-linux-gnu" "/tmp/uv-runner-1" "/tmp/uv-runner-1/uv" (by decide) rfl
    (by decide)).1 "uv-runner" "a.py" ["b.py"] rfl).1

set_option maxRecDepth 100000 in
/-- C11, the code at the failing input: on a supported host whose temporary directory is
created and whose checksum request is answered with status 200 and an empty body,
downloadUV does not return an error, it panics on the index expression, and main ends with
that panic. -/
theorem C11_panic_without_returned_error :
    Cli.resolveTarget emptyChecksumWorld.goos emptyChecksumWorld.goarch
      = .ret "x86_64-unknown-linux-gnu" ∧
    emptyChecksumWorld.mkdirTemp = .ok "/tmp/uv-runner-1" ∧
    (Cli.downloadUV emptyChecksumWorld "/tmp/uv-runner-1" "x86_64-unknown-linux-gnu").out
      = .panic "runtime error: index out of range [0] with length 0" ∧
    (Cli.main emptyChecksumWorld).out
      = .panic "runtime error: index out of range [0] with length 0" :=
  ⟨by decide, rfl, by decide, by decide⟩

set_option maxRecDepth 100000 in
/-- C12, the code at the failing input: when the pipeline succeeds and the tool exits with
status 1, main ends by os.Exit(1); its last event is the run of the tool, os.RemoveAll is
never called, and the temporary directory and the extracted binary are still there. -/
theorem C12_exit_skips_removal :
    (Cli.main childFailsWorld).out = .ret 1 ∧
    (Cli.main childFailsWorld).trace.getLast?
      = some (.run "/tmp/uv-runner-1/uv" ["run", "a.py", "b.py"]) ∧
    Event.removeAll "/tmp/uv-runner-1" ∉ (Cli.main childFailsWorld).trace ∧
    replay emptyFS (Cli.main childFailsWorld).trace "/tmp/uv-runner-1" = some .dir ∧
    replay emptyFS (Cli.main childFailsWorld).trace "/tmp/uv-runner-1/uv"
      = some (.file [9, 9] 0o755) ∧
    replay emptyFS (Cli.main verifiedWorld).trace "/tmp/uv-runner-1" = none := by
  decide

/-- C13.  With uv initialised, a non-empty script list and at least one registered command,
runScripts first issues, for every registered command that has a process, the signal to its
process group (Unix) or the tree kill (Windows) and the direct kill, and empties the
registry; no command is started in that part; only then, pipes and Start succeeding, is the
new command started and registered, and the registry holds exactly that command. -/
theorem C13_registry_emptied_before_start (w : World) (a : Gui.App) (pid : Nat)
    (huv : a.uvPath ≠ "") (hs : a.scripts ≠ []) (hreg : a.runningCmds ≠ [])
    (hpipe : w.pipeErr = none)
    (hstart : w.startCmd a.uvPath ("run" :: a.scripts) = .ok pid) :
    Gui.App.stopExisting w a
      = (a.runningCmds.flatMap (Gui.stopCmd w), { a with runningCmds := [] }) ∧
    (∀ c ∈ a.runningCmds, ∀ p, c.process = some p →
      Event.processKill p ∈ (Gui.App.stopExisting w a).1 ∧
      (Event.run "kill" ["-TERM", "-" ++ fmtInt p] ∈ (Gui.App.stopExisting w a).1 ∨
        Event.run "taskkill" ["/F", "/T", "/PID", fmtInt p] ∈ (Gui.App.stopExisting w a).1)) ∧
    (Gui.App.stopExisting w a).2.runningCmds = [] ∧
    starts (Gui.App.stopExisting w a).1 = [] ∧
    Gui.App.runScripts w a
      = ((Gui.App.stopExisting w a).1 ++ [.start a.uvPath ("run" :: a.scripts)],
          (Gui.App.stopExisting w a).2.addRunningCmd ⟨a.uvPath, "run" :: a.scripts, some pid⟩) ∧
    (Gui.App.runScripts w a).2.runningCmds = [⟨a.uvPath, "run" :: a.scripts, some pid⟩] := by
  have hlen : a.runningCmds.length > 0 := List.length_pos.mpr hreg
  have hstop : Gui.App.stopExisting w a
      = (a.runningCmds.flatMap (Gui.stopCmd w), { a with runningCmds := [] }) := by
    simp only [Gui.App.stopExisting, hlen, if_true]
  have hstart' : w.startCmd a.uvPath (["run"] ++ a.scripts) = .ok pid := hstart
  have hrun : Gui.App.runScripts w a
      = ((Gui.App.stopExisting w a).1 ++ [.start a.uvPath ("run" :: a.scripts)],
          (Gui.App.stopExisting w a).2.addRunningCmd ⟨a.uvPath, "run" :: a.scripts, some pid⟩) := by
    rw [runScripts_eq w a huv hs, hstop]
    simp only [Gui.App.startScripts, hpipe, hstart']
    rfl
  refine ⟨hstop, ?_, ?_, ?_, hrun, ?_⟩
  · intro c hc p hp
    rw [hstop]
    exact stopCmd_mem w a.runningCmds c p hc hp
  · rw [hstop]
  · rw [hstop]
    exact starts_stopCmd w a.runningCmds
  · rw [hrun, hstop]
    rfl

/-- C13, witness: one registered command, of process id 77, on a Linux host. -/
theorem C13_registry_emptied_before_start_witness :
    Gui.App.runScripts verifiedWorld busyApp
      = ([.run "kill" ["-TERM", "-77"], .processKill 77,
          .start "/tmp/uv-runner-1/uv" ["run", "x.py"]],
         { busyApp with
           runningCmds := [⟨"/tmp/uv-runner-1/uv", ["run", "x.py"], some 4242⟩] }) :=
  (C13_registry_emptied_before_start verifiedWorld busyApp 4242 (by decide) (by decide)
    (by decide) rfl rfl).2.2.2.2.1

/-- C14 (as amended).  For a registered command with process id `pid`: on a Unix-family
host cleanup issues TERM to the process group, the wait of 100 ms when that command
succeeded, KILL to the process group and the direct kill, which is the sequence of the
specification when TERM succeeded; on Windows cleanup and runScripts both issue the tree
kill and the direct kill; cleanup does so for the registered commands in order, then
removes the temporary directory, and runScripts applies its termination to the registered
commands in order. -/
theorem C14_termination_sequences (w : World) (a : Gui.App) (cmd : Gui.Cmd) (pid : Nat)
    (hp : cmd.process = some pid) :
    (w.goos ≠ "windows" →
      Gui.cleanupCmd w cmd
        = [.run "kill" ["-TERM", "-" ++ fmtInt pid]]
          ++ (if (w.runErr "kill" ["-TERM", "-" ++ fmtInt pid]).isSome then []
              else [.sleep 100])
          ++ [.run "kill" ["-KILL", "-" ++ fmtInt pid], .processKill pid] ∧
      (w.runErr "kill" ["-TERM", "-" ++ fmtInt pid] = none →
        Gui.cleanupCmd w cmd = Gui.claimedTermination w.goos pid)) ∧
    (w.goos = "windows" →
      Gui.cleanupCmd w cmd = Gui.claimedTermination w.goos pid ∧
      Gui.stopCmd w cmd = Gui.claimedTermination w.goos pid) ∧
    (Gui.App.cleanup w a).1
      = a.runningCmds.flatMap (Gui.cleanupCmd w)
        ++ (if a.tempDir ≠ "" then [Event.removeAll a.tempDir] else []) ∧
    (Gui.App.cleanup w a).2.runningCmds = [] ∧
    (a.runningCmds ≠ [] →
      (Gui.App.stopExisting w a).1 = a.runningCmds.flatMap (Gui.stopCmd w)) := by
  refine ⟨?_, ?_, rfl, rfl, ?_⟩
  · intro hw
    constructor
    · cases hr : w.runErr "kill" ["-TERM", "-" ++ fmtInt pid] <;>
        simp [Gui.cleanupCmd, hp, hw, hr]
    · intro hr
      simp [Gui.cleanupCmd, Gui.claimedTermination, hp, hw, hr]
  · intro hw
    constructor
    · simp [Gui.cleanupCmd, Gui.claimedTermination, hp, hw]
    · simp [Gui.stopCmd, Gui.claimedTermination, hp, hw]
  · intro hreg
    have hlen : a.runningCmds.length > 0 := List.length_pos.mpr hreg
    simp only [Gui.App.stopExisting, hlen, if_true]

/-- C14, witness: cleanup on a Linux host and on a Windows host, one registered command of
process id 77. -/
theorem C14_termination_sequences_witness :
    Gui.cleanupCmd verifiedWorld ⟨"/tmp/uv-runner-1/uv", ["run", "w.py"], some 77⟩
      = Gui.claimedTermination verifiedWorld.goos 77 ∧
    Gui.stopCmd windowsWorld ⟨"/tmp/uv-runner-1/uv", ["run", "w.py"], some 77⟩
      = Gui.claimedTermination windowsWorld.goos 77 :=
  ⟨((C14_termination_sequences verifiedWorld busyApp
      ⟨"/tmp/uv-runner-1/uv", ["run", "w.py"], some 77⟩ 77 rfl).1 (by decide)).2 rfl,
   ((C14_termination_sequences windowsWorld busyApp
      ⟨"/tmp/uv-runner-1/uv", ["run", "w.py"], some 77⟩ 77 rfl).2.1 (by decide)).2⟩

/-- C14, as stated, fails: on a Linux host runScripts issues, for the registered command of
process id 77, TERM to the process group and the direct kill only, with neither the wait nor
KILL to the process group; and cleanup issues no wait when the command kill -TERM fails. -/
theorem C14_runScripts_skips_escalation :
    Gui.claimedTermination "linux" 77
      = [.run "kill" ["-TERM", "-77"], .sleep 100, .run "kill" ["-KILL", "-77"],
         .processKill 77] ∧
    (Gui.App.runScripts verifiedWorld busyApp).1
      = [.run "kill" ["-TERM", "-77"], .processKill 77,
         .start "/tmp/uv-runner-1/uv" ["run", "x.py"]] ∧
    (Gui.App.stopExisting verifiedWorld busyApp).1 ≠ Gui.claimedTermination "linux" 77 ∧
    Event.sleep 100 ∉ (Gui.App.runScripts verifiedWorld busyApp).1 ∧
    Event.run "kill" ["-KILL", "-77"] ∉ (Gui.App.runScripts verifiedWorld busyApp).1 ∧
    (Gui.App.cleanup killFailsWorld busyApp).1
      = [.run "kill" ["-TERM", "-77"], .run "kill" ["-KILL", "-77"], .processKill 77,
         .removeAll "/tmp/uv-runner-1"] := by
  decide

set_option maxRecDepth 100000 in
/-- C15, the code at the failing input: a checksum response with status 200 and an empty
body, or with white space only, has no field; the CLI and the GUI downloadUV then end
neither with a path nor with an error value, but with the panic of the index expression. -/
theorem C15_empty_checksum_panics :
    stringsFields (goString []) = [] ∧
    stringsFields (goString (bytesOf " \n" ++ bytesOf "\t")) = [] ∧
    (Cli.downloadUV emptyChecksumWorld "/tmp/uv-runner-1" "x86_64-unknown-linux-gnu").out
      = .panic "runtime error: index out of range [0] with length 0" ∧
    (Gui.App.downloadUV emptyChecksumWorld "/tmp/uv-runner-1").out
      = .panic "runtime error: index out of range [0] with length 0" ∧
    (Cli.downloadUV blankChecksumWorld "/tmp/uv-runner-1" "x86_64-unknown-linux-gnu").out
      = .panic "runtime error: index out of range [0] with length 0" ∧
    (Gui.App.downloadUV blankChecksumWorld "/tmp/uv-runner-1").out
      = .panic "runtime error: index out of range [0] with length 0" := by
  decide

end UvRunner
